import Mathlib

/-!
# critterevolution

A shallow embedding of `src/main.cpp` (critterevolution v1.0.0) and theorems about it.

Conventions of the embedding:

* `float` and `double` values are idealised as exact rationals (`ℚ`); no theorem below
  depends on rounding.
* `int` values are `Int`; no arithmetic on them overflows on the states the theorems consider.
* Functions of the C math library and of SFML that the program calls, but does not define,
  are fields of a `Library` value that every definition takes as a parameter.
* The process-wide random engine is the state `Rng`: an arbitrary stream of raw outcomes
  together with the number of draws made so far.
* `std::list<Critter>` together with the iterator `this` points at is the triple
  `before`, `self`, `after`; `push_front` conses on `before`.
* Indexing a `std::vector` out of range is undefined behaviour; the functions that index
  return `Option`, with `none` for that case.
-/

namespace CritterEvolution

/-! ## Values -/

/-- The type `sf::Vector2<float>`. -/
structure Vector2 where
  x : ℚ
  y : ℚ
deriving DecidableEq

/-- The type `sf::Rect<float>`. -/
structure FloatRect where
  left : ℚ
  top : ℚ
  width : ℚ
  height : ℚ
deriving DecidableEq

/-- The type `sf::Color` (red, green, blue). -/
structure Color where
  r : Int
  g : Int
  b : Int
deriving DecidableEq

/-- The part of an `sf::Sprite` that the program sets: position, rotation and colour.
A freshly constructed sprite sits at the origin, unrotated, white. -/
structure Sprite where
  position : Vector2 := ⟨0, 0⟩
  rotation : ℚ := 0
  color : Color := ⟨255, 255, 255⟩
deriving DecidableEq

/-- Library functions called by `main.cpp` and defined outside it: `cos`, `sin`, `abs`,
`atan2` of the C library, and `getGlobalBounds`, `Rect::contains`, `Rect::intersects`
of SFML. -/
structure Library where
  cos : ℚ → ℚ
  sin : ℚ → ℚ
  abs : ℚ → ℚ
  atan2 : ℚ → ℚ → ℚ
  getGlobalBounds : Sprite → FloatRect
  contains : FloatRect → Vector2 → Bool
  intersects : FloatRect → FloatRect → Bool

/-! ## Constants (lines 24-43) -/

def NUM_MOVEMENTS : Nat := 3
/-- The signal for movement end, the vector `{9999.9999, -9999.9999}`. -/
def END_MOVEMENT : Vector2 := ⟨99999999 / 10000, -99999999 / 10000⟩
def DEF_AGE_LIMIT : Int := 2000
def DEF_MATE_HEALTH : Int := 300
def WIDTH : Int := 800
def HEIGHT : Int := 600
def DEF_FOODS : Int := 200
def DEF_FOOD_POWER : Int := 300
def DEF_NUM_CRITTERS : Int := 20

/-- The five configurable globals (lines 39-43), initialised to their defaults. -/
structure Config where
  AGE_LIMIT : Int := DEF_AGE_LIMIT
  MATE_HEALTH : Int := DEF_MATE_HEALTH
  FOODS : Int := DEF_FOODS
  FOOD_POWER : Int := DEF_FOOD_POWER
  NUM_CRITTERS : Int := DEF_NUM_CRITTERS
deriving DecidableEq

/-! ## Random generators (lines 124-132) -/

/-- The random engine `rng`: `raw n` and `gauss n` are the raw outcomes available to the
`n`-th draw (for an integer distribution and for a normal distribution respectively) and
`calls` counts the draws made so far. -/
structure Rng where
  raw : Nat → Nat
  gauss : Nat → ℚ
  calls : Nat := 0

/-- A `std::uniform_int_distribution<int>` with closed range `[lo, hi]`. -/
structure UniformInt where
  lo : Int
  hi : Int

/-- A `std::normal_distribution<float>` with its mean and standard deviation. -/
structure Normal where
  mean : ℚ
  stddev : ℚ

/-- One draw `d(rng)` from a uniform integer distribution: a value of `[lo, hi]`
determined by the raw outcome. -/
def UniformInt.draw (d : UniformInt) (rng : Rng) : Int × Rng :=
  (d.lo + (rng.raw rng.calls : Int) % (d.hi - d.lo + 1), { rng with calls := rng.calls + 1 })

/-- One draw `d(rng)` from a normal distribution. -/
def Normal.draw (d : Normal) (rng : Rng) : ℚ × Rng :=
  (d.mean + d.stddev * rng.gauss rng.calls, { rng with calls := rng.calls + 1 })

def rnd_normal_02 : Normal := ⟨0, 2 / 10⟩
def rnd_normal_1 : Normal := ⟨0, 1⟩
def rnd_normal_3 : Normal := ⟨0, 3⟩
def rnd_uniform_20_100 : UniformInt := ⟨20, 200⟩
def rnd_uniform_50_255 : UniformInt := ⟨50, 255⟩
/-- Default-constructed distribution: the range is `[0, INT_MAX]`. -/
def rnd_uniform_1 : UniformInt := ⟨0, 2147483647⟩
def rnd_uniform_width : UniformInt := ⟨0, WIDTH⟩
def rnd_uniform_height : UniformInt := ⟨0, HEIGHT⟩

/-! ## Movement step (lines 144-189) -/

/-- The struct `MovementStep`. -/
structure MovementStep where
  speed : Vector2 := ⟨0, 0⟩
  mov_radius : Vector2 := ⟨0, 0⟩
  mov_tick_speed : Vector2 := ⟨0, 0⟩
  mov_tick_counter : Vector2 := ⟨0, 0⟩
  length : Int := 0
  counter : Int := 0
deriving DecidableEq

/-- The constructor `MovementStep()` (lines 156-162): seven draws, in source order. -/
def MovementStep.new (rng : Rng) : MovementStep × Rng :=
  let (sx, rng) := rnd_normal_1.draw rng
  let (sy, rng) := rnd_normal_1.draw rng
  let (rx, rng) := rnd_normal_3.draw rng
  let (ry, rng) := rnd_normal_3.draw rng
  let (tx, rng) := rnd_normal_02.draw rng
  let (ty, rng) := rnd_normal_02.draw rng
  let (len, rng) := rnd_uniform_20_100.draw rng
  ({ speed := ⟨sx, sy⟩, mov_radius := ⟨rx, ry⟩, mov_tick_speed := ⟨tx, ty⟩,
     length := len, mov_tick_counter := ⟨0, 0⟩, counter := 0 }, rng)

/-- The method `start` (lines 164-166). -/
def MovementStep.start (s : MovementStep) : MovementStep :=
  { s with counter := s.length }

/-- The state change of lines 179-181: the countdown is decremented and the running phase
advanced by the phase increment. -/
def MovementStep.tick (s : MovementStep) : MovementStep :=
  { s with
    counter := s.counter - 1,
    mov_tick_counter :=
      ⟨s.mov_tick_counter.x + s.mov_tick_speed.x, s.mov_tick_counter.y + s.mov_tick_speed.y⟩ }

/-- The displacement computed at lines 183-186 from the step's fields. -/
def MovementStep.displacement (lib : Library) (s : MovementStep) : Vector2 :=
  ⟨s.speed.x + lib.cos s.mov_tick_counter.x * s.mov_radius.x,
   s.speed.y + lib.sin s.mov_tick_counter.y * s.mov_radius.y⟩

/-- The method `update_position` (lines 175-187): the returned vector and the step
afterwards. -/
def MovementStep.update_position (lib : Library) (s : MovementStep) : Vector2 × MovementStep :=
  if s.counter < 0 then
    (END_MOVEMENT, s)
  else
    let s := s.tick
    (s.displacement lib, s)

/-- The step after `n` successive calls of `update_position`. -/
def MovementStep.afterCalls (lib : Library) : Nat → MovementStep → MovementStep
  | 0, s => s
  | n + 1, s => MovementStep.afterCalls lib n (s.update_position lib).2

/-- The vector returned by call number `n + 1` of `update_position`. -/
def MovementStep.nthCall (lib : Library) (n : Nat) (s : MovementStep) : Vector2 :=
  ((s.afterCalls lib n).update_position lib).1

/-! ## Food (lines 198-259) -/

/-- The struct `Food`. -/
structure Food where
  position : Vector2
deriving DecidableEq

/-- The constructor `Food()` (lines 202-205). -/
def Food.new (rng : Rng) : Food × Rng :=
  let (x, rng) := rnd_uniform_width.draw rng
  let (y, rng) := rnd_uniform_height.draw rng
  (⟨⟨(x : ℚ), (y : ℚ)⟩⟩, rng)

/-- The class `Foods`: the vector `foods`. -/
structure Foods where
  foods : List Food

/-- The algorithm `std::find_if`: the position of the first element satisfying `p`,
or the length of the list (the `end` iterator) when there is none. -/
def find_if {α : Type} (p : α → Bool) : List α → Nat
  | [] => 0
  | a :: l => if p a then 0 else find_if p l + 1

/-- The method `Foods::try_to_eat` (lines 244-256). -/
def Foods.try_to_eat (lib : Library) (fs : Foods) (critterBox : FloatRect) (rng : Rng) :
    Bool × Foods × Rng :=
  let found := find_if (fun food : Food => lib.contains critterBox food.position) fs.foods
  if found ≠ fs.foods.length then
    let erased := fs.foods.eraseIdx found
    let (fresh, rng) := Food.new rng
    (true, ⟨erased ++ [fresh]⟩, rng)
  else
    (false, fs, rng)

/-! ## Critter (lines 268-444) -/

/-- Element `i` of a `std::vector`; `none` when `i` is out of range. -/
def vectorAt {α : Type} (v : List α) (i : Int) : Option α :=
  if 0 ≤ i then v[i.toNat]? else none

/-- Assignment to element `i` of a `std::vector` (only used with `i` in range). -/
def vectorSet {α : Type} (v : List α) (i : Int) (a : α) : List α :=
  v.set i.toNat a

/-- The private data members of the class `Critter` (lines 400-413); of the sprite `shape`
only what the program sets is kept. -/
structure Critter where
  position : Vector2
  movement_steps : List MovementStep
  color : Color
  current_step : Int := 0
  rotation : ℚ := 0
  health : ℚ := 0
  age : Int := 0
  bred : Bool := false
  oldPosition : Vector2 := ⟨0, 0⟩
  shape : Sprite := {}
deriving DecidableEq

/-- The macro `EITHER_PARENT` (line 19), applied to the value `draw` returned by
`rnd_uniform_1(rng)`: a non-zero draw selects the member of `parent1`. -/
def EITHER_PARENT {α : Type} (draw : Int) (member1 member2 : α) : α :=
  if draw ≠ 0 then member1 else member2

/-- What `movement_steps.resize(NUM_MOVEMENTS)` does to the engine: it default-constructs
`n` steps, each by `MovementStep()`. -/
def resizeSteps : Nat → Rng → List MovementStep × Rng
  | 0, rng => ([], rng)
  | n + 1, rng =>
    let (s, rng) := MovementStep.new rng
    let (l, rng) := resizeSteps n rng
    (s :: l, rng)

/-- The default constructor `Critter()` (lines 274-289). -/
def Critter.new (rng : Rng) : Option (Critter × Rng) := do
  let (r, rng) := rnd_uniform_50_255.draw rng
  let (g, rng) := rnd_uniform_50_255.draw rng
  let (b, rng) := rnd_uniform_50_255.draw rng
  let color : Color := ⟨r, g, b⟩
  let shape : Sprite := { color := color }
  let (x, rng) := rnd_uniform_width.draw rng
  let (y, rng) := rnd_uniform_height.draw rng
  let (_, rng) := resizeSteps NUM_MOVEMENTS rng
  let (steps, rng) := resizeSteps NUM_MOVEMENTS rng
  let c : Critter := { position := ⟨(x : ℚ), (y : ℚ)⟩, movement_steps := steps,
                       color := color, shape := shape }
  let s ← vectorAt c.movement_steps c.current_step
  some ({ c with movement_steps := vectorSet c.movement_steps c.current_step s.start }, rng)

/-- The two-parent constructor `Critter(const Critter&, const Critter&)` (lines 295-309). -/
def Critter.fromParents (parent1 parent2 : Critter) (rng : Rng) : Option (Critter × Rng) := do
  let (d, rng) := rnd_uniform_1.draw rng
  let position := EITHER_PARENT d parent1.position parent2.position
  let (steps, rng) := resizeSteps NUM_MOVEMENTS rng
  let (d, rng) := rnd_uniform_1.draw rng
  let s0 ← EITHER_PARENT d (vectorAt parent1.movement_steps 0) (vectorAt parent2.movement_steps 0)
  let steps := vectorSet steps 0 s0
  let (d, rng) := rnd_uniform_1.draw rng
  let s1 ← EITHER_PARENT d (vectorAt parent1.movement_steps 1) (vectorAt parent2.movement_steps 1)
  let steps := vectorSet steps 1 s1
  let (d, rng) := rnd_uniform_1.draw rng
  let s2 ← EITHER_PARENT d (vectorAt parent1.movement_steps 2) (vectorAt parent2.movement_steps 2)
  let steps := vectorSet steps 2 s2
  let (d, rng) := rnd_uniform_1.draw rng
  let color := EITHER_PARENT d parent1.color parent2.color
  let shape : Sprite := { color := color }
  let c : Critter := { position := position, movement_steps := steps, color := color,
                       shape := shape }
  let s ← vectorAt c.movement_steps c.current_step
  some ({ c with movement_steps := vectorSet c.movement_steps c.current_step s.start }, rng)

/-- The method `canMate` (lines 389-393); `/` on `int` truncates. -/
def Critter.canMate (cfg : Config) (c : Critter) : Bool :=
  (decide (c.age ≥ cfg.AGE_LIMIT.tdiv 4) && decide (c.age ≤ cfg.AGE_LIMIT.tdiv 4 * 3))
    && decide (c.health ≥ (cfg.MATE_HEALTH : ℚ))
    && !c.bred

/-- The method `setBred` (lines 395-397). -/
def Critter.setBred (c : Critter) : Critter :=
  { c with bred := true }

/-- The effect of the method `draw` (lines 378-382) on the critter: its sprite is moved
to `position` and turned to `rotation`. -/
def Critter.draw (c : Critter) : Critter :=
  { c with shape := { c.shape with
      position := c.position,
      rotation := if c.rotation ≥ 0 then c.rotation else c.rotation + 360 } }

/-- First part of `update` (lines 321-328): the displacement of this frame and the
critter with its steps and cursor advanced. -/
def Critter.update_movement (lib : Library) (c : Critter) : Option (Vector2 × Critter) := do
  let step ← vectorAt c.movement_steps c.current_step
  let (movement, step) := step.update_position lib
  let c := { c with movement_steps := vectorSet c.movement_steps c.current_step step }
  if movement = END_MOVEMENT then
    let c := { c with current_step :=
      if c.current_step + 1 = (c.movement_steps.length : Int) then 0 else c.current_step + 1 }
    let step ← vectorAt c.movement_steps c.current_step
    let step := step.start
    let (movement, step) := step.update_position lib
    let c := { c with movement_steps := vectorSet c.movement_steps c.current_step step }
    some (movement, c)
  else
    some (movement, c)

/-- What the mating scan of one `update` call carries along: the critters pushed to the
front of the list so far (latest first), `*this`, and the random engine. -/
structure Scan where
  pushed : List Critter
  self : Critter
  rng : Rng

/-- The lambda of the mating scan (lines 345-354) applied to a list element `mateCritter`
other than `*this`: the scan state and the element afterwards. -/
def Critter.update_mate (lib : Library) (cfg : Config) (st : Scan) (mateCritter : Critter) :
    Option (Scan × Critter) :=
  if lib.intersects (lib.getGlobalBounds st.self.shape) (lib.getGlobalBounds mateCritter.shape)
      && mateCritter.canMate cfg then do
    let (child, rng) ← Critter.fromParents st.self mateCritter st.rng
    some ({ pushed := child :: st.pushed, self := st.self.setBred, rng := rng },
          mateCritter.setBred)
  else
    some (st, mateCritter)

/-- The call `std::for_each` of the mating scan over a run of list elements that does not
contain `*this`. -/
def Critter.update_scan (lib : Library) (cfg : Config) :
    Scan → List Critter → Option (Scan × List Critter)
  | st, [] => some (st, [])
  | st, mateCritter :: rest => do
    let (st, mateCritter) ← Critter.update_mate lib cfg st mateCritter
    let (st, rest) ← Critter.update_scan lib cfg st rest
    some (st, mateCritter :: rest)

/-- The arguments and the receiver of one `update` call: the food pool, the list
`critters` split at `*this`, and the random engine. -/
structure World where
  foods : Foods
  before : List Critter
  self : Critter
  after : List Critter
  rng : Rng

/-- The list `critters` of a world. -/
def World.critters (w : World) : List Critter :=
  w.before ++ w.self :: w.after

/-- Last part of `update` (lines 357-370): the displacement is applied to the position,
the position is wrapped at the window bounds, and the rotation is recomputed. -/
def Critter.update_place (lib : Library) (movement : Vector2) (self : Critter) : Critter :=
  let self := { self with oldPosition := ⟨self.position.x, self.position.y⟩ }
  let self := { self with position :=
    ⟨self.position.x + movement.x, self.position.y + movement.y⟩ }
  let self := if self.position.x < (0 : ℚ) then
    { self with position := ⟨800, self.position.y⟩ } else self
  let self := if self.position.x > (800 : ℚ) then
    { self with position := ⟨0, self.position.y⟩ } else self
  let self := if self.position.y < (0 : ℚ) then
    { self with position := ⟨self.position.x, 600⟩ } else self
  let self := if self.position.y > (600 : ℚ) then
    { self with position := ⟨self.position.x, 0⟩ } else self
  let angle :=
    lib.atan2 (self.oldPosition.y - self.position.y) (self.oldPosition.x - self.position.x)
  { self with rotation := angle * (180 / (314 / 100)) - 90 }

/-- The mating part of `update` (lines 344-355): when `*this` can mate, the scan runs over
the whole list. For the element `*this` itself the lambda's test `this != &mateCritter`
fails, so the scan passes over it without effect. -/
def Critter.update_mating (lib : Library) (cfg : Config) (before : List Critter)
    (self : Critter) (after : List Critter) (rng : Rng) :
    Option (Scan × List Critter × List Critter) :=
  if self.canMate cfg then do
    let (st, before) ← Critter.update_scan lib cfg ⟨[], self, rng⟩ before
    let (st, after) ← Critter.update_scan lib cfg st after
    some (st, before, after)
  else
    some (⟨[], self, rng⟩, before, after)

/-- The rest of `update` after the displacement `movement` has been obtained
(lines 330-372); `self` is `*this` with its steps already advanced. -/
def Critter.update_rest (lib : Library) (cfg : Config) (movement : Vector2) (self : Critter)
    (w : World) : Option (Bool × World) := do
  let self := { self with age := self.age + 1 }
  let self := { self with health := self.health - (lib.abs movement.x + lib.abs movement.y) }
  if self.age ≥ cfg.AGE_LIMIT then
    some (false, { w with self := self })
  else
    let (ate, foods, rng) := w.foods.try_to_eat lib (lib.getGlobalBounds self.shape) w.rng
    let self := if ate then { self with health := self.health + (cfg.FOOD_POWER : ℚ) } else self
    let (st, before, after) ← Critter.update_mating lib cfg w.before self w.after rng
    let self := Critter.update_place lib movement st.self
    some (true, { foods := foods, before := st.pushed ++ before, self := self,
                  after := after, rng := st.rng })

/-- The method `Critter::update` (lines 319-373): the returned flag and the world
afterwards. -/
def Critter.update (lib : Library) (cfg : Config) (w : World) : Option (Bool × World) := do
  let (movement, self) ← w.self.update_movement lib
  Critter.update_rest lib cfg movement self w

/-- The world after `n` consecutive `update` calls on the same critter. -/
def Critter.updates (lib : Library) (cfg : Config) : Nat → World → Option World
  | 0, w => some w
  | n + 1, w => do
    let (_, w) ← Critter.update lib cfg w
    Critter.updates lib cfg n w

/-- The result of `update` call number `n + 1` in a run of consecutive calls on the same
critter. -/
def Critter.nthUpdate (lib : Library) (cfg : Config) (n : Nat) (w : World) :
    Option (Bool × World) := do
  let w ← Critter.updates lib cfg n w
  Critter.update lib cfg w

/-! ## Main loop (lines 493-502) -/

/-- The state of the update loop of `main`: the food pool, the list `critters` split at
the iterator `critter` (`todo` starts at the iterator), and the random engine. -/
structure Loop where
  foods : Foods
  done : List Critter
  todo : List Critter
  rng : Rng

/-- The food pool after `try_to_eat` has been called once for each rectangle of a list,
in order. -/
def Foods.eatAll (lib : Library) : List FloatRect → Foods → Rng → Foods × Rng
  | [], fs, rng => (fs, rng)
  | box :: boxes, fs, rng =>
    let r := fs.try_to_eat lib box rng
    Foods.eatAll lib boxes r.2.1 r.2.2

/-- The `for` loop of lines 493-502, run for at most `n` iterations; `none` when an
`update` call is undefined or when iterations remain after `n`. -/
def updateLoop (lib : Library) (cfg : Config) : Nat → Loop → Option Loop
  | _, ⟨foods, done, [], rng⟩ => some ⟨foods, done, [], rng⟩
  | 0, ⟨_, _, _ :: _, _⟩ => none
  | n + 1, ⟨foods, done, critter :: rest, rng⟩ => do
    let (alive, w) ← Critter.update lib cfg ⟨foods, done, critter, rest, rng⟩
    if alive then
      updateLoop lib cfg n ⟨w.foods, w.before ++ [w.self.draw], w.after, w.rng⟩
    else
      updateLoop lib cfg n ⟨w.foods, w.before, w.after, w.rng⟩

/-- One frame of `main`: the update loop over the whole list, from `begin` to `end`. -/
def frame (lib : Library) (cfg : Config) (foods : Foods) (critters : List Critter) (rng : Rng) :
    Option (Foods × List Critter × Rng) := do
  let l ← updateLoop lib cfg critters.length ⟨foods, [], critters, rng⟩
  some (l.foods, l.done ++ l.todo, l.rng)

/-! ## Invariants -/

/-- The class invariant of `Critter` that the constructors establish: the vector
`movement_steps` holds `NUM_MOVEMENTS` steps and `current_step` indexes one of them. -/
def Critter.wf (c : Critter) : Prop :=
  c.movement_steps.length = NUM_MOVEMENTS ∧ 0 ≤ c.current_step ∧
    c.current_step < (NUM_MOVEMENTS : Int)

instance (c : Critter) : Decidable c.wf := by
  unfold Critter.wf; infer_instance

/-- Every critter of the list satisfies the class invariant. -/
def World.wf (w : World) : Prop :=
  (∀ c ∈ w.before, c.wf) ∧ w.self.wf ∧ (∀ c ∈ w.after, c.wf)

/-- A list element after a mating scan: the critter `c` itself, or `c` with `bred` set. -/
def Critter.bredOnly (c c' : Critter) : Prop :=
  c' = c ∨ c' = c.setBred

/-- The step a critter is currently running. -/
def Critter.activeStep (c : Critter) : Option MovementStep :=
  vectorAt c.movement_steps c.current_step

/-- The flag `bred`, once set on `c`, is set on `c'`, and `c'` cannot mate under any
configuration. -/
def Critter.staysBred (c c' : Critter) : Prop :=
  c.bred = true → c'.bred = true ∧ ∀ cfg : Config, c'.canMate cfg = false

/-- The simulation between two `update` calls: the food pool, the list `critters` and the
random engine. -/
structure Population where
  foods : Foods
  critters : List Critter
  rng : Rng

/-- One `update` call on the critter at position `i` of the list, its returned flag being
ignored; a position past the end of the list makes no call. -/
def Population.updateAt (lib : Library) (cfg : Config) (i : Nat) (p : Population) :
    Option Population :=
  match p.critters.drop i with
  | [] => some p
  | self :: after => do
    let (_, w) ← Critter.update lib cfg ⟨p.foods, p.critters.take i, self, after, p.rng⟩
    some ⟨w.foods, w.critters, w.rng⟩

/-- A sequence of `update` calls, each on the critter at the given position of the list as
it is at the time of the call. -/
def Population.updatesAt (lib : Library) (cfg : Config) :
    List Nat → Population → Option Population
  | [], p => some p
  | i :: rest, p => do
    let p ← p.updateAt lib cfg i
    Population.updatesAt lib cfg rest p

instance (w : World) : Decidable w.wf := by
  unfold World.wf; infer_instance

/-- The `update` call on the world `w` returns, and the displacement `movement` that its
movement part hands to the rest of `update` (ageing, health, position) was returned by
`update_position` on a step `s` whose countdown was not negative: it is the displacement of
lines 183-186, computed by the branch that does not signal exhaustion, and `s` ticked is
the step the critter is running afterwards. -/
def Critter.usesStepDisplacement (lib : Library) (cfg : Config) (w : World) : Prop :=
  ∃ (movement : Vector2) (self1 : Critter) (s : MovementStep),
    w.self.update_movement lib = some (movement, self1) ∧
    Critter.update lib cfg w = Critter.update_rest lib cfg movement self1 w ∧
    (Critter.update lib cfg w).isSome = true ∧
    0 ≤ s.counter ∧
    s.update_position lib = (movement, s.tick) ∧
    movement = s.tick.displacement lib ∧
    self1.activeStep = some s.tick

/-! ## Concrete data for evaluating the definitions -/

/-- A concrete library on which the definitions can be evaluated: `cos` and `sin` take
their values at phase `0` (the examples below keep the running phase at `0`), `abs` is the
absolute value, a sprite's bounds are the 10 by 17 texture at the sprite's position, and
`contains` and `intersects` compare coordinates as `sf::Rect` does. -/
def exampleLib : Library where
  cos := fun _ => 1
  sin := fun _ => 0
  abs := fun q => if q < 0 then -q else q
  atan2 := fun _ _ => 0
  getGlobalBounds := fun s => ⟨s.position.x, s.position.y, 10, 17⟩
  contains := fun r p =>
    decide (min r.left (r.left + r.width) ≤ p.x) && decide (p.x < max r.left (r.left + r.width))
      && decide (min r.top (r.top + r.height) ≤ p.y)
      && decide (p.y < max r.top (r.top + r.height))
  intersects := fun r1 r2 =>
    decide (max (min r1.left (r1.left + r1.width)) (min r2.left (r2.left + r2.width))
        < min (max r1.left (r1.left + r1.width)) (max r2.left (r2.left + r2.width)))
      && decide (max (min r1.top (r1.top + r1.height)) (min r2.top (r2.top + r2.height))
        < min (max r1.top (r1.top + r1.height)) (max r2.top (r2.top + r2.height)))

/-- A random engine all of whose raw outcomes are `0`. -/
def exampleRng : Rng := { raw := fun _ => 0, gauss := fun _ => 0 }

/-- A step of length 20 that does not move: zero speed, radius and phase increment. -/
def stillStep : MovementStep := { length := 20 }

/-- A critter aged 500 with health 300 at position (100, 100), drawn there, whose three
steps are `stillStep` started. -/
def stillCritter : Critter :=
  { position := ⟨100, 100⟩, movement_steps := [stillStep.start, stillStep.start, stillStep.start],
    color := ⟨50, 50, 50⟩, health := 300, age := 500, shape := { position := ⟨100, 100⟩ } }

/-- A world with an empty food pool whose list holds `stillCritter` alone. -/
def stillWorld : World := ⟨⟨[]⟩, [], stillCritter, [], exampleRng⟩

/-- A step of length 20 with a stale countdown: it was started and has run 15 calls. -/
def runningStep : MovementStep := { length := 20, counter := 5 }

/-- A parent whose three steps are `runningStep`. -/
def runningParent : Critter :=
  { position := ⟨100, 100⟩, movement_steps := [runningStep, runningStep, runningStep],
    color := ⟨50, 50, 50⟩, health := 300, age := 500, shape := { position := ⟨100, 100⟩ } }

/-- A configuration whose age limit, 2002, is not a multiple of 4; the other parameters
keep their defaults. -/
def oddLimits : Config := { AGE_LIMIT := 2002 }

/-- A critter aged 1501 with health 300 that has not bred. -/
def lateCritter : Critter := { stillCritter with age := 1501 }

/-- A critter like `stillCritter` that has bred. -/
def bredCritter : Critter := stillCritter.setBred

/-- A population of `bredCritter` and `stillCritter` with an empty food pool. -/
def mixedPopulation : Population := ⟨⟨[]⟩, [bredCritter, stillCritter], exampleRng⟩

/-- A world with an empty food pool whose list holds three copies of `stillCritter`, all at
the same position; `update` is called on the first. -/
def crowdedWorld : World := ⟨⟨[]⟩, [], stillCritter, [stillCritter, stillCritter], exampleRng⟩

/-- A started step of length 20 that moves by (1, 0) on every call. -/
def walkStep : MovementStep := { speed := ⟨1, 0⟩, length := 20, counter := 20 }

/-- A critter aged 500 with health 300 at position (100, 100), drawn there, whose three
steps are `walkStep`. -/
def walkCritter : Critter :=
  { position := ⟨100, 100⟩, movement_steps := [walkStep, walkStep, walkStep],
    color := ⟨50, 50, 50⟩, health := 300, age := 500, shape := { position := ⟨100, 100⟩ } }

/-- A critter like `walkCritter` standing at x = 799, one step of (1, 0) short of the right
edge. -/
def edgeCritter : Critter := { walkCritter with position := ⟨799, 100⟩ }

/-- A world with an empty food pool whose list holds `edgeCritter` alone. -/
def edgeWorld : World := ⟨⟨[]⟩, [], edgeCritter, [], exampleRng⟩

/-- A configuration whose age limit, 501, is reached by a critter aged 500 on its next
update; the other parameters keep their defaults. -/
def shortLimits : Config := { AGE_LIMIT := 501 }

/-- The `for` loop of lines 493-502 as `updateLoop`, which also records, in call order, the
critter each `update` call of line 494 is made on (the element at the iterator, as it is
when the call is made). -/
def updateLoopTrace (lib : Library) (cfg : Config) : Nat → Loop → Option (List Critter × Loop)
  | _, ⟨foods, done, [], rng⟩ => some ([], ⟨foods, done, [], rng⟩)
  | 0, ⟨_, _, _ :: _, _⟩ => none
  | n + 1, ⟨foods, done, critter :: rest, rng⟩ => do
    let (alive, w) ← Critter.update lib cfg ⟨foods, done, critter, rest, rng⟩
    let (calls, l) ←
      if alive then
        updateLoopTrace lib cfg n ⟨w.foods, w.before ++ [w.self.draw], w.after, w.rng⟩
      else
        updateLoopTrace lib cfg n ⟨w.foods, w.before, w.after, w.rng⟩
    some (critter :: calls, l)

/-- The body of the `while` loop of `main` run `n` times: `n` complete frames. -/
def frames (lib : Library) (cfg : Config) :
    Nat → Foods × List Critter × Rng → Option (Foods × List Critter × Rng)
  | 0, s => some s
  | n + 1, s => do
    let s' ← frame lib cfg s.1 s.2.1 s.2.2
    frames lib cfg n s'

/-- A list of three copies of `stillCritter`, all at the same position. -/
def crowd : List Critter := [stillCritter, stillCritter, stillCritter]

/-- A critter as the default constructor leaves its age, health and flag: `stillCritter`
with age 0 and health 0. -/
def youngCritter : Critter := { stillCritter with age := 0, health := 0 }

/-- A configuration whose age limit is 2; the other parameters keep their defaults. -/
def briefLimits : Config := { AGE_LIMIT := 2 }

/-- A random engine all of whose raw outcomes are `180`. -/
def longRng : Rng := { raw := fun _ => 180, gauss := fun _ => 0 }

/-- A random engine all of whose raw outcomes are `1`. -/
def oneRng : Rng := { raw := fun _ => 1, gauss := fun _ => 0 }

/-! ## Configuration (lines 64-107) -/

/-- The exception `std::stoi` throws when the value is outside the range of `int`;
`load_config` has no handler for it. -/
inductive Exception where
  | out_of_range
deriving DecidableEq

deriving instance DecidableEq for Except

/-- The characters `\s` matches: the space and the control characters 9 to 13 (tab, line
feed, vertical tab, form feed, carriage return). -/
def isSpace (c : Char) : Bool :=
  c.toNat = 32 || (9 ≤ c.toNat && c.toNat ≤ 13)

/-- The characters `\d` matches: the decimal digits. -/
def isDigit (c : Char) : Bool :=
  48 ≤ c.toNat && c.toNat ≤ 57

/-- The literal part of a pattern matched at the start of a text: the rest of the text
when the text starts with the literal. -/
def matchLiteral : List Char → List Char → Option (List Char)
  | [], text => some text
  | _ :: _, [] => none
  | k :: ks, c :: cs => if k = c then matchLiteral ks cs else none

/-- The pattern `key\s*\=\s*(\d+)` matched at the start of a text: the digits captured by
the group when the pattern matches there. The quantifiers are greedy and what follows each
of them cannot start with a character it matches, so the match at a position is unique. -/
def matchAt (key text : List Char) : Option (List Char) :=
  match matchLiteral key text with
  | none => none
  | some rest =>
    match rest.dropWhile isSpace with
    | '=' :: rest =>
      let digits := (rest.dropWhile isSpace).takeWhile isDigit
      if digits = [] then none else some digits
    | _ => none

/-- The call `std::regex_search(line, match, rgx)` for the pattern `key\s*\=\s*(\d+)`:
the pattern is tried at every position of the line from the left and the first match
counts; the result is `match[1]`, and `none` when the call returns false. -/
def regex_search (key : List Char) : List Char → Option (List Char)
  | [] => matchAt key []
  | c :: cs =>
    match matchAt key (c :: cs) with
    | some digits => some digits
    | none => regex_search key cs

/-- The call `std::stoi` on a string of decimal digits: their value, or the exception
`std::out_of_range` when the value does not fit an `int`. -/
def stoi (digits : List Char) : Except Exception Int :=
  let value : Nat := digits.foldl (fun n c => 10 * n + (c.toNat - 48)) 0
  if value ≤ 2147483647 then .ok (value : Int) else .error .out_of_range

def rgx_age : List Char := "age".toList
def rgx_health : List Char := "health".toList
def rgx_foods : List Char := "foods".toList
def rgx_food_pwr : List Char := "foodpower".toList
def rgx_critters : List Char := "critters".toList

/-- The lines `std::getline` reads from a stream with the given content until it fails: the
content is cut at every line feed, and a last line needs no line feed after it. The
second argument holds the characters of the current line read so far, last first, and the
third tells whether the current line has any. -/
def getlines : List Char → List Char → Bool → List (List Char)
  | [], line, some_read => if some_read then [line.reverse] else []
  | c :: cs, line, _ =>
    if c = '\n' then line.reverse :: getlines cs [] false
    else getlines cs (c :: line) true

/-- The body of the `while` loop of `load_config` (lines 92-106) for one line. -/
def load_line (cfg : Config) (line : List Char) : Except Exception Config := do
  let cfg ← match regex_search rgx_age line with
    | some m => do
      let v ← stoi m
      pure { cfg with AGE_LIMIT := v }
    | none => pure cfg
  let cfg ← match regex_search rgx_health line with
    | some m => do
      let v ← stoi m
      pure { cfg with MATE_HEALTH := v }
    | none => pure cfg
  let cfg ← match regex_search rgx_foods line with
    | some m => do
      let v ← stoi m
      pure { cfg with FOODS := v }
    | none => pure cfg
  let cfg ← match regex_search rgx_food_pwr line with
    | some m => do
      let v ← stoi m
      pure { cfg with FOOD_POWER := v }
    | none => pure cfg
  match regex_search rgx_critters line with
    | some m => do
      let v ← stoi m
      pure { cfg with NUM_CRITTERS := v }
    | none => pure cfg

/-- The loop over the lines of the file. -/
def load_lines : List (List Char) → Config → Except Exception Config
  | [], cfg => pure cfg
  | line :: lines, cfg => do
    let cfg ← load_line cfg line
    load_lines lines cfg

/-- The function `load_config` (lines 78-108): `file` is the content of the file `conf`,
`none` when the file cannot be opened, and `cfg` holds the five globals before the call.
The result is the globals after the call, or the exception that leaves the function. -/
def load_config (file : Option (List Char)) (cfg : Config) : Except Exception Config :=
  match file with
  | none => pure cfg
  | some content => load_lines (getlines content [] false) cfg

/-! ## Movement steps: theorems -/

theorem MovementStep.update_position_of_nonneg (lib : Library) (s : MovementStep)
    (h : 0 ≤ s.counter) : s.update_position lib = (s.tick.displacement lib, s.tick) := by
  simp [MovementStep.update_position, not_lt.mpr h]

theorem MovementStep.update_position_of_neg (lib : Library) (s : MovementStep)
    (h : s.counter < 0) : s.update_position lib = (END_MOVEMENT, s) := by
  simp [MovementStep.update_position, h]

theorem MovementStep.afterCalls_of_le (lib : Library) (k : Nat) :
    ∀ s : MovementStep, (k : Int) ≤ s.counter + 1 →
      (s.afterCalls lib k).counter = s.counter - k ∧ (s.afterCalls lib k).length = s.length := by
  induction k with
  | zero => intro s _; simp [MovementStep.afterCalls]
  | succ k ih =>
    intro s h
    have h0 : 0 ≤ s.counter := by push_cast at h; omega
    have hk : (k : Int) ≤ s.tick.counter + 1 := by
      simp only [MovementStep.tick]; push_cast at h; omega
    have := ih s.tick hk
    simp only [MovementStep.afterCalls, MovementStep.update_position_of_nonneg lib s h0]
    simp only [MovementStep.tick] at this ⊢
    push_cast
    constructor
    · omega
    · exact this.2

/-- After `start()` on a step of length `d ≥ 0`, each of the first `d + 1` calls of
`update_position` finds the countdown non-negative and returns the displacement computed
at lines 183-186; the call after those finds it negative and returns `END_MOVEMENT`. -/
theorem MovementStep.calls_after_start (lib : Library) (s : MovementStep) (d : Nat)
    (hd : s.length = d) :
    (∀ k : Nat, k ≤ d →
      0 ≤ (s.start.afterCalls lib k).counter ∧
      s.start.nthCall lib k = (s.start.afterCalls lib k).tick.displacement lib) ∧
    (s.start.afterCalls lib (d + 1)).counter < 0 ∧
    s.start.nthCall lib (d + 1) = END_MOVEMENT := by
  have hc : s.start.counter = d := by simp [MovementStep.start, hd]
  refine ⟨fun k hk => ?_, ?_, ?_⟩
  · have h := (MovementStep.afterCalls_of_le lib k s.start (by rw [hc]; omega)).1
    have h0 : 0 ≤ (s.start.afterCalls lib k).counter := by rw [h, hc]; omega
    exact ⟨h0, by simp [MovementStep.nthCall, MovementStep.update_position_of_nonneg lib _ h0]⟩
  · have h := (MovementStep.afterCalls_of_le lib (d + 1) s.start (by rw [hc]; push_cast; omega)).1
    rw [h, hc]; push_cast; omega
  · have h := (MovementStep.afterCalls_of_le lib (d + 1) s.start (by rw [hc]; push_cast; omega)).1
    have hneg : (s.start.afterCalls lib (d + 1)).counter < 0 := by rw [h, hc]; push_cast; omega
    simp [MovementStep.nthCall, MovementStep.update_position_of_neg lib _ hneg]

set_option maxRecDepth 100000 in
unseal Rat.add Rat.mul Rat.inv Rat.sub in
/-- C1, the code at the failing input: on a step of length 20 whose fields are all zero,
after `start()` the 21st call of `update_position` still returns a displacement, `(0, 0)`,
which is not `END_MOVEMENT`; the 22nd call is the one that returns `END_MOVEMENT`. -/
theorem C1_step_of_length_20_lasts_21_calls :
    stillStep.length = 20 ∧
    stillStep.start.nthCall exampleLib 20 = ⟨0, 0⟩ ∧
    stillStep.start.nthCall exampleLib 20 ≠ END_MOVEMENT ∧
    stillStep.start.nthCall exampleLib 21 = END_MOVEMENT := by
  decide

/-! ## The movement part of `update`: theorems -/

theorem Critter.wf_cases (c : Critter) (h : c.wf) :
    ∃ s0 s1 s2, c.movement_steps = [s0, s1, s2] ∧
      (c.current_step = 0 ∨ c.current_step = 1 ∨ c.current_step = 2) := by
  obtain ⟨hl, h0, h3⟩ := h
  simp only [NUM_MOVEMENTS] at hl h3
  match hm : c.movement_steps, hl with
  | [s0, s1, s2], _ =>
    refine ⟨s0, s1, s2, rfl, ?_⟩
    push_cast at h3
    omega

theorem MovementStep.update_position_length (lib : Library) (s : MovementStep) :
    (s.update_position lib).2.length = s.length := by
  unfold MovementStep.update_position
  split <;> simp [MovementStep.tick]

theorem MovementStep.start_length (s : MovementStep) : s.start.length = s.length := rfl

theorem MovementStep.nonneg_of_ne_end (lib : Library) (s : MovementStep)
    (h : ¬ (s.update_position lib).1 = END_MOVEMENT) : 0 ≤ s.counter := by
  by_contra hc
  exact h (by rw [MovementStep.update_position_of_neg lib s (by omega)])

theorem Critter.update_movement_spec (lib : Library) (c : Critter) (h : c.wf) :
    ∃ movement c', c.update_movement lib = some (movement, c') ∧ c'.wf ∧
      c' = { c with movement_steps := c'.movement_steps, current_step := c'.current_step } ∧
      c'.movement_steps.map MovementStep.length = c.movement_steps.map MovementStep.length ∧
      ((∀ s ∈ c.movement_steps, 0 ≤ s.length) →
        ∃ s : MovementStep, 0 ≤ s.counter ∧ movement = s.tick.displacement lib ∧
          s.update_position lib = (movement, s.tick) ∧ c'.activeStep = some s.tick) := by
  obtain ⟨s0, s1, s2, hs, hc⟩ := Critter.wf_cases c h
  rcases hc with hc | hc | hc
  all_goals
    simp only [Critter.update_movement, hs, hc, vectorAt, vectorSet, Critter.activeStep,
      Critter.wf, NUM_MOVEMENTS]
    simp only [List.mem_cons, List.mem_singleton, forall_eq_or_imp, forall_eq]
    simp
    split
    · rename_i hend
      refine ⟨_, _, rfl, by simp, by simp,
        by simp [MovementStep.update_position_length, MovementStep.start_length], ?_⟩
      intro h0 h1 h2
      first
      | exact ⟨s0.start, h0, by simp [MovementStep.update_position_of_nonneg lib s0.start h0],
          by simp [MovementStep.update_position_of_nonneg lib s0.start h0],
          by simp [MovementStep.update_position_of_nonneg lib s0.start h0]⟩
      | exact ⟨s1.start, h1, by simp [MovementStep.update_position_of_nonneg lib s1.start h1],
          by simp [MovementStep.update_position_of_nonneg lib s1.start h1],
          by simp [MovementStep.update_position_of_nonneg lib s1.start h1]⟩
      | exact ⟨s2.start, h2, by simp [MovementStep.update_position_of_nonneg lib s2.start h2],
          by simp [MovementStep.update_position_of_nonneg lib s2.start h2],
          by simp [MovementStep.update_position_of_nonneg lib s2.start h2]⟩
    · rename_i hend
      have hn := MovementStep.nonneg_of_ne_end lib _ hend
      refine ⟨_, _, rfl, by simp, by simp,
        by simp [MovementStep.update_position_length], ?_⟩
      intro _ _ _
      exact ⟨_, hn, by simp [MovementStep.update_position_of_nonneg lib _ hn],
          by simp [MovementStep.update_position_of_nonneg lib _ hn],
          by simp [MovementStep.update_position_of_nonneg lib _ hn]⟩

/-! ## The two-parent constructor: theorems -/

theorem EITHER_PARENT_some {α : Type} (d : Int) (a b : α) :
    EITHER_PARENT d (some a) (some b) = some (EITHER_PARENT d a b) := by
  unfold EITHER_PARENT; split <;> rfl

theorem EITHER_PARENT_cases {α : Type} (d : Int) (a b : α) :
    EITHER_PARENT d a b = a ∨ EITHER_PARENT d a b = b := by
  unfold EITHER_PARENT; split <;> simp

theorem resizeSteps_three (rng : Rng) :
    ∃ x y z rng', resizeSteps NUM_MOVEMENTS rng = ([x, y, z], rng') := by
  simp [resizeSteps, NUM_MOVEMENTS]

theorem Critter.fromParents_spec (p1 p2 : Critter) (rng : Rng)
    (a0 a1 a2 b0 b1 b2 : MovementStep)
    (h1 : p1.movement_steps = [a0, a1, a2]) (h2 : p2.movement_steps = [b0, b1, b2]) :
    ∃ (dp d0 d1 d2 dc : Int) (rng' : Rng),
      Critter.fromParents p1 p2 rng = some
        ({ position := EITHER_PARENT dp p1.position p2.position,
           movement_steps :=
             [(EITHER_PARENT d0 a0 b0).start, EITHER_PARENT d1 a1 b1, EITHER_PARENT d2 a2 b2],
           color := EITHER_PARENT dc p1.color p2.color,
           shape := { color := EITHER_PARENT dc p1.color p2.color } }, rng') := by
  obtain ⟨x, y, z, r, hr⟩ := resizeSteps_three (rnd_uniform_1.draw rng).2
  refine ⟨(rnd_uniform_1.draw rng).1, (rnd_uniform_1.draw r).1,
    (rnd_uniform_1.draw (rnd_uniform_1.draw r).2).1,
    (rnd_uniform_1.draw (rnd_uniform_1.draw (rnd_uniform_1.draw r).2).2).1,
    (rnd_uniform_1.draw (rnd_uniform_1.draw (rnd_uniform_1.draw (rnd_uniform_1.draw r).2).2).2).1,
    (rnd_uniform_1.draw (rnd_uniform_1.draw (rnd_uniform_1.draw (rnd_uniform_1.draw r).2).2).2).2,
    ?_⟩
  simp only [Critter.fromParents, hr, h1, h2, vectorAt, vectorSet]
  simp [EITHER_PARENT_some]

theorem Critter.fromParents_wf (p1 p2 : Critter) (rng : Rng) (h1 : p1.wf) (h2 : p2.wf) :
    ∃ child rng', Critter.fromParents p1 p2 rng = some (child, rng') ∧ child.wf ∧
      child.bred = false ∧ child.age = 0 ∧ child.health = 0 := by
  obtain ⟨a0, a1, a2, ha, -⟩ := Critter.wf_cases p1 h1
  obtain ⟨b0, b1, b2, hb, -⟩ := Critter.wf_cases p2 h2
  obtain ⟨dp, d0, d1, d2, dc, rng', h⟩ :=
    Critter.fromParents_spec p1 p2 rng a0 a1 a2 b0 b1 b2 ha hb
  exact ⟨_, _, h, by simp [Critter.wf, NUM_MOVEMENTS], rfl, rfl, rfl⟩

/-! ## The mating scan: theorems -/

theorem Critter.bredOnly_refl (c : Critter) : Critter.bredOnly c c := Or.inl rfl

theorem Critter.bredOnly_setBred (c : Critter) : Critter.bredOnly c c.setBred := Or.inr rfl

theorem Critter.bredOnly_trans {a b c : Critter} (h1 : Critter.bredOnly a b)
    (h2 : Critter.bredOnly b c) : Critter.bredOnly a c := by
  rcases h1 with rfl | rfl <;> rcases h2 with rfl | rfl <;> simp [Critter.bredOnly, Critter.setBred]

theorem Critter.bredOnly_wf {a b : Critter} (h : Critter.bredOnly a b) (hw : a.wf) : b.wf := by
  rcases h with rfl | rfl
  · exact hw
  · exact hw

theorem Critter.bredOnly_bred {a b : Critter} (h : Critter.bredOnly a b)
    (hb : a.bred = true) : b.bred = true := by
  rcases h with rfl | rfl
  · exact hb
  · rfl

theorem Critter.bredOnly_fields {a b : Critter} (h : Critter.bredOnly a b) :
    b = { a with bred := b.bred } := by
  rcases h with rfl | rfl <;> rfl

theorem Critter.update_mate_spec (lib : Library) (cfg : Config) (st : Scan) (m : Critter)
    (hs : st.self.wf) (hm : m.wf) :
    ∃ st' m', Critter.update_mate lib cfg st m = some (st', m') ∧
      Critter.bredOnly m m' ∧ Critter.bredOnly st.self st'.self ∧
      ∃ new, st'.pushed = new ++ st.pushed ∧ ∀ c ∈ new, c.wf ∧ c.bred = false ∧ c.age = 0 := by
  unfold Critter.update_mate
  split
  · obtain ⟨child, rng', hc, hwf, hb, ha0, -⟩ := Critter.fromParents_wf st.self m st.rng hs hm
    refine ⟨{ pushed := child :: st.pushed, self := st.self.setBred, rng := rng' }, m.setBred,
      by simp [hc], Critter.bredOnly_setBred _, Critter.bredOnly_setBred _, [child], rfl, ?_⟩
    simp [hwf, hb, ha0]
  · exact ⟨_, _, rfl, Critter.bredOnly_refl _, Critter.bredOnly_refl _, [], rfl, by simp⟩

theorem Critter.update_scan_spec (lib : Library) (cfg : Config) (l : List Critter) :
    ∀ st : Scan, st.self.wf → (∀ c ∈ l, c.wf) →
    ∃ st' l', Critter.update_scan lib cfg st l = some (st', l') ∧
      List.Forall₂ Critter.bredOnly l l' ∧ Critter.bredOnly st.self st'.self ∧
      ∃ new, st'.pushed = new ++ st.pushed ∧ ∀ c ∈ new, c.wf ∧ c.bred = false ∧ c.age = 0 := by
  induction l with
  | nil =>
    intro st _ _
    exact ⟨st, [], rfl, List.Forall₂.nil, Critter.bredOnly_refl _, [], rfl, by simp⟩
  | cons m ms ih =>
    intro st hs hl
    obtain ⟨st1, m', h1, hm, hs1, new1, hp1, hn1⟩ :=
      Critter.update_mate_spec lib cfg st m hs (hl m (List.mem_cons_self _ _))
    obtain ⟨st2, ms', h2, hms, hs2, new2, hp2, hn2⟩ :=
      ih st1 (Critter.bredOnly_wf hs1 hs) (fun c hc => hl c (List.mem_cons_of_mem _ hc))
    refine ⟨st2, m' :: ms', ?_, List.Forall₂.cons hm hms, Critter.bredOnly_trans hs1 hs2,
      new2 ++ new1, by rw [hp2, hp1, List.append_assoc], ?_⟩
    · simp [Critter.update_scan, h1, h2]
    · intro c hc
      rcases List.mem_append.mp hc with h | h
      · exact hn2 c h
      · exact hn1 c h

theorem Critter.forall₂_bredOnly_wf {l l' : List Critter}
    (h : List.Forall₂ Critter.bredOnly l l') (hw : ∀ c ∈ l, c.wf) : ∀ c ∈ l', c.wf := by
  induction h with
  | nil => simp
  | cons hab _ ih =>
    intro c hc
    rcases List.mem_cons.mp hc with rfl | hc
    · exact Critter.bredOnly_wf hab (hw _ (List.mem_cons_self _ _))
    · exact ih (fun c hc => hw c (List.mem_cons_of_mem _ hc)) c hc

theorem Critter.forall₂_bredOnly_refl (l : List Critter) : List.Forall₂ Critter.bredOnly l l := by
  induction l with
  | nil => exact List.Forall₂.nil
  | cons a l ih => exact List.Forall₂.cons (Critter.bredOnly_refl a) ih

theorem Critter.update_mating_spec (lib : Library) (cfg : Config) (before after : List Critter)
    (self : Critter) (rng : Rng) (hb : ∀ c ∈ before, c.wf) (hs : self.wf)
    (ha : ∀ c ∈ after, c.wf) :
    ∃ st before' after',
      Critter.update_mating lib cfg before self after rng = some (st, before', after') ∧
      List.Forall₂ Critter.bredOnly before before' ∧ Critter.bredOnly self st.self ∧
      List.Forall₂ Critter.bredOnly after after' ∧ (∀ c ∈ st.pushed, c.wf ∧ c.bred = false ∧ c.age = 0) ∧
      (self.canMate cfg = false → st.pushed = [] ∧ st.self = self ∧ before' = before ∧
        after' = after ∧ st.rng = rng) := by
  unfold Critter.update_mating
  split
  · rename_i hcan
    obtain ⟨st1, b', h1, hb', hs1, new1, hp1, hn1⟩ :=
      Critter.update_scan_spec lib cfg before ⟨[], self, rng⟩ hs hb
    obtain ⟨st2, a', h2, ha', hs2, new2, hp2, hn2⟩ :=
      Critter.update_scan_spec lib cfg after st1 (Critter.bredOnly_wf hs1 hs) ha
    refine ⟨st2, b', a', by simp [h1, h2], hb', Critter.bredOnly_trans hs1 hs2, ha', ?_, ?_⟩
    · intro c hc
      rw [hp2, hp1] at hc
      simp only [List.append_nil] at hc
      rcases List.mem_append.mp hc with h | h
      · exact hn2 c h
      · exact hn1 c h
    · intro hf; rw [hf] at hcan; exact absurd hcan (by simp)
  · exact ⟨_, _, _, rfl, Critter.forall₂_bredOnly_refl _, Critter.bredOnly_refl _,
      Critter.forall₂_bredOnly_refl _, by simp, fun _ => ⟨rfl, rfl, rfl, rfl, rfl⟩⟩

/-! ## One `update` call: theorems -/

theorem Critter.update_place_fields (lib : Library) (movement : Vector2) (c : Critter) :
    (Critter.update_place lib movement c).movement_steps = c.movement_steps ∧
    (Critter.update_place lib movement c).current_step = c.current_step ∧
    (Critter.update_place lib movement c).age = c.age ∧
    (Critter.update_place lib movement c).bred = c.bred ∧
    (Critter.update_place lib movement c).health = c.health ∧
    (Critter.update_place lib movement c).shape = c.shape := by
  simp only [Critter.update_place]
  split_ifs <;> simp

/-- What one `update` call does to the world, given the displacement and the critter that
the movement part hands over. -/
theorem Critter.update_rest_spec (lib : Library) (cfg : Config) (movement : Vector2)
    (self : Critter) (w : World) (hb : ∀ c ∈ w.before, c.wf) (hs : self.wf)
    (ha : ∀ c ∈ w.after, c.wf) :
    ∃ alive w', Critter.update_rest lib cfg movement self w = some (alive, w') ∧
      (alive = true ↔ self.age + 1 < cfg.AGE_LIMIT) ∧
      w'.self.age = self.age + 1 ∧
      w'.self.movement_steps = self.movement_steps ∧
      w'.self.current_step = self.current_step ∧
      w'.self.shape = self.shape ∧
      (self.bred = true → w'.self.bred = true) ∧
      (∃ new before', w'.before = new ++ before' ∧
        List.Forall₂ Critter.bredOnly w.before before' ∧ ∀ c ∈ new, c.wf ∧ c.bred = false ∧ c.age = 0) ∧
      List.Forall₂ Critter.bredOnly w.after w'.after := by
  by_cases hage : self.age + 1 ≥ cfg.AGE_LIMIT
  · refine ⟨false, { w with self := { self with
        age := self.age + 1,
        health := self.health - (lib.abs movement.x + lib.abs movement.y) } },
      by simp [Critter.update_rest, hage], by simp; omega, rfl, rfl, rfl,
      rfl, fun h => h, ⟨[], w.before, rfl, Critter.forall₂_bredOnly_refl _, by simp⟩,
      Critter.forall₂_bredOnly_refl _⟩
  · simp only [Critter.update_rest, hage, if_false]
    generalize hself : (if (w.foods.try_to_eat lib (lib.getGlobalBounds self.shape) w.rng).1 = true
      then _ else _ : Critter) = self2
    have h2 : self2.age = self.age + 1 ∧ self2.movement_steps = self.movement_steps ∧
        self2.current_step = self.current_step ∧ self2.bred = self.bred ∧
        self2.shape = self.shape := by
      rw [← hself]; split <;> simp
    have hs2 : self2.wf := by
      obtain ⟨_, hm, hc, _⟩ := h2
      unfold Critter.wf at hs ⊢
      rw [hm, hc]; exact hs
    obtain ⟨st, b', a', hmate, hfb, hfs, hfa, hnew, -⟩ :=
      Critter.update_mating_spec lib cfg w.before w.after self2
        (w.foods.try_to_eat lib (lib.getGlobalBounds self.shape) w.rng).2.2 hb hs2 ha
    have hf := Critter.update_place_fields lib movement st.self
    have hst := Critter.bredOnly_fields hfs
    refine ⟨true, _, by simp [hmate]; rfl, by simp; omega, ?_, ?_, ?_, ?_, ?_,
      ⟨st.pushed, b', rfl, hfb, hnew⟩, hfa⟩
    · simp only [hf.2.2.1]; rw [hst]; exact h2.1
    · simp only [hf.1]; rw [hst]; exact h2.2.1
    · simp only [hf.2.1]; rw [hst]; exact h2.2.2.1
    · simp only [hf.2.2.2.2.2]; rw [hst]; exact h2.2.2.2.2
    · intro hbred
      simp only [hf.2.2.2.1]
      exact Critter.bredOnly_bred hfs (by rw [h2.2.2.2.1]; exact hbred)

/-- One `update` call on a well-formed world returns, and the world afterwards is described
through the displacement and the critter handed over by the movement part. -/
theorem Critter.update_spec (lib : Library) (cfg : Config) (w : World) (hw : w.wf) :
    ∃ movement self1 alive w',
      w.self.update_movement lib = some (movement, self1) ∧
      Critter.update lib cfg w = Critter.update_rest lib cfg movement self1 w ∧
      Critter.update lib cfg w = some (alive, w') ∧
      w'.wf ∧
      (alive = true ↔ w.self.age + 1 < cfg.AGE_LIMIT) ∧
      w'.self.age = w.self.age + 1 ∧
      w'.self.movement_steps = self1.movement_steps ∧
      w'.self.current_step = self1.current_step ∧
      w'.self.shape = w.self.shape ∧
      (w.self.bred = true → w'.self.bred = true) ∧
      (∃ new before', w'.before = new ++ before' ∧
        List.Forall₂ Critter.bredOnly w.before before' ∧ ∀ c ∈ new, c.wf ∧ c.bred = false ∧ c.age = 0) ∧
      List.Forall₂ Critter.bredOnly w.after w'.after := by
  obtain ⟨hb, hs, ha⟩ := hw
  obtain ⟨movement, self1, hmov, hwf1, hfields, -, -⟩ :=
    Critter.update_movement_spec lib w.self hs
  obtain ⟨alive, w', hrest, halive, hage, hsteps, hcur, hshape, hbred, ⟨new, b', hbef, hfb, hnew⟩,
    haft⟩ := Critter.update_rest_spec lib cfg movement self1 w hb hwf1 ha
  have hupd : Critter.update lib cfg w = Critter.update_rest lib cfg movement self1 w := by
    simp [Critter.update, hmov]
  have e1 : self1.age = w.self.age := by rw [hfields]
  have e2 : self1.bred = w.self.bred := by rw [hfields]
  have e3 : self1.shape = w.self.shape := by rw [hfields]
  refine ⟨movement, self1, alive, w', hmov, hupd, by rw [hupd, hrest], ⟨?_, ?_, ?_⟩,
    by rw [← e1]; exact halive, by rw [← e1]; exact hage, hsteps, hcur, by rw [← e3]; exact hshape,
    by rw [← e2]; exact hbred, ⟨new, b', hbef, hfb, hnew⟩, haft⟩
  · intro c hc
    rw [hbef] at hc
    rcases List.mem_append.mp hc with h | h
    · exact (hnew c h).1
    · exact Critter.forall₂_bredOnly_wf hfb hb c h
  · unfold Critter.wf at hwf1 ⊢
    rw [hsteps, hcur]; exact hwf1
  · exact Critter.forall₂_bredOnly_wf haft ha

/-- Arbitrarily many consecutive `update` calls on a well-formed world all return; the
lengths of the critter's steps never change, and its age grows by one per call. -/
theorem Critter.updates_spec (lib : Library) (cfg : Config) (n : Nat) :
    ∀ w : World, w.wf →
    ∃ wn, Critter.updates lib cfg n w = some wn ∧ wn.wf ∧
      wn.self.movement_steps.map MovementStep.length =
        w.self.movement_steps.map MovementStep.length ∧
      wn.self.age = w.self.age + n ∧
      (w.self.bred = true → wn.self.bred = true) := by
  induction n with
  | zero => intro w hw; exact ⟨w, rfl, hw, rfl, by simp, fun h => h⟩
  | succ n ih =>
    intro w hw
    obtain ⟨movement, self1, alive, w', hmov, -, hupd, hw', -, hage, hsteps, -, -, hbred, -, -⟩ :=
      Critter.update_spec lib cfg w hw
    obtain ⟨wn, hn, hwn, hlenn, hagen, hbredn⟩ := ih w' hw'
    refine ⟨wn, by simp [Critter.updates, hupd, hn], hwn, ?_, ?_, fun h => hbredn (hbred h)⟩
    · rw [hlenn, hsteps]
      have := Critter.update_movement_spec lib w.self hw.2.1
      obtain ⟨m2, c2, h2, -, -, hl2, -⟩ := this
      rw [hmov] at h2
      cases h2
      exact hl2
    · rw [hagen, hage]; push_cast; ring

/-! ## Consecutive `update` calls: claims C2 and C4 -/

/-- C2: for every critter with three movement steps of length at least 0 and its cursor in
{0, 1, 2} (in a list of well-formed critters), and for every number `n` of consecutive
`update` calls, the calls all return and the displacement that the next `update` call uses
for health and position is one computed by `update_position` in its non-exhausted branch
(countdown at least 0), also when the active step signalled exhaustion and the next step was
started within the same call. -/
theorem C2_update_uses_step_displacement (lib : Library) (cfg : Config) (w : World)
    (hw : w.wf) (hlen : ∀ s ∈ w.self.movement_steps, 0 ≤ s.length) (n : Nat) :
    ∃ wn, Critter.updates lib cfg n w = some wn ∧ Critter.usesStepDisplacement lib cfg wn := by
  obtain ⟨wn, hn, hwn, hlenn, -, -⟩ := Critter.updates_spec lib cfg n w hw
  have hlen' : ∀ s ∈ wn.self.movement_steps, 0 ≤ s.length := by
    intro s hs
    have h1 : s.length ∈ wn.self.movement_steps.map MovementStep.length :=
      List.mem_map_of_mem _ hs
    rw [hlenn] at h1
    obtain ⟨t, ht, hts⟩ := List.mem_map.mp h1
    rw [← hts]
    exact hlen t ht
  obtain ⟨movement, self1, alive, w', hmov, hupd, hsome, -⟩ := Critter.update_spec lib cfg wn hwn
  obtain ⟨m2, c2, h2, -, -, -, hstep⟩ := Critter.update_movement_spec lib wn.self hwn.2.1
  rw [hmov] at h2
  cases h2
  obtain ⟨s, hs0, hdisp, hpos, hact⟩ := hstep hlen'
  exact ⟨wn, hn, movement, self1, s, hmov, hupd, by rw [hsome]; rfl, hs0, hpos, hdisp, hact⟩

/-- Witness for C2: 25 consecutive calls on `stillCritter`, whose steps last 21 calls each. -/
theorem C2_update_uses_step_displacement_witness :
    stillWorld.wf ∧ (∀ s ∈ stillWorld.self.movement_steps, 0 ≤ s.length) ∧
    ∃ wn, Critter.updates exampleLib {} 25 stillWorld = some wn ∧
      Critter.usesStepDisplacement exampleLib {} wn :=
  ⟨by decide, by decide,
    C2_update_uses_step_displacement exampleLib {} stillWorld (by decide) (by decide) 25⟩

/-- C4: for every critter and every age limit, `update` call number `n + 1` of a run of
consecutive calls returns, leaves the age at the initial age plus `n + 1` (each call adds
exactly 1), and returns alive exactly when that incremented age is below the age limit.
For a critter created at age 0 and a limit `L ≥ 1` this is: alive on updates 1 to `L - 1`,
dead on update `L` and not before. -/
theorem C4_update_ages_by_one (lib : Library) (cfg : Config) (w : World) (hw : w.wf)
    (n : Nat) :
    ∃ alive w', Critter.nthUpdate lib cfg n w = some (alive, w') ∧
      w'.self.age = w.self.age + n + 1 ∧
      (alive = true ↔ w.self.age + n + 1 < cfg.AGE_LIMIT) ∧
      (w.self.age = 0 → (alive = true ↔ (n : Int) + 1 < cfg.AGE_LIMIT)) := by
  obtain ⟨wn, hn, hwn, -, hage, -⟩ := Critter.updates_spec lib cfg n w hw
  obtain ⟨-, -, alive, w', -, -, hupd, -, halive, hage', -⟩ := Critter.update_spec lib cfg wn hwn
  rw [hage] at halive
  refine ⟨alive, w', by simp [Critter.nthUpdate, hn, hupd], by rw [hage', hage], halive, ?_⟩
  intro h0
  rw [h0, zero_add] at halive
  exact halive

/-- Witness for C4: the fourth consecutive call on `stillCritter` under the default limits. -/
theorem C4_update_ages_by_one_witness :
    stillWorld.wf ∧
    ∃ alive w', Critter.nthUpdate exampleLib {} 3 stillWorld = some (alive, w') ∧
      w'.self.age = stillWorld.self.age + (3 : Nat) + 1 ∧
      (alive = true ↔ stillWorld.self.age + (3 : Nat) + 1 < ({} : Config).AGE_LIMIT) ∧
      (stillWorld.self.age = 0 → (alive = true ↔ ((3 : Nat) : Int) + 1 < ({} : Config).AGE_LIMIT)) :=
  ⟨by decide, C4_update_ages_by_one exampleLib {} stillWorld (by decide) 3⟩

/-! ## Inheritance of movement steps: claim C3 -/

set_option maxRecDepth 100000 in
unseal Rat.add Rat.mul Rat.inv Rat.sub in
/-- C3, counterexample: two parents whose slot 0 is a step of length 20 with countdown 5;
slot 0 of the offspring has countdown 20, so it is identical to neither parent's slot 0. -/
theorem C3_offspring_slot0_differs :
    (Critter.fromParents runningParent runningParent exampleRng).map
        (fun r => r.1.movement_steps) =
      some [{ length := 20, counter := 20 }, runningStep, runningStep] ∧
    ({ length := 20, counter := 20 } : MovementStep) ≠ runningStep := by
  decide

/-- C3, amended: for every pair of parents with steps (A0, A1, A2) and (B0, B1, B2) and
every outcome of the random draws, the two-parent constructor returns an offspring with
exactly three slots; slots 1 and 2 are identical in all fields to A1 or B1 and to A2 or B2;
slot 0 is A0 or B0 with `start()` applied: identical in speed, radius, phase increment,
running phase and length, with the countdown reset to the length. -/
theorem C3_offspring_slots (p1 p2 : Critter) (rng : Rng) (a0 a1 a2 b0 b1 b2 : MovementStep)
    (h1 : p1.movement_steps = [a0, a1, a2]) (h2 : p2.movement_steps = [b0, b1, b2]) :
    ∃ child rng' s0 s1 s2, Critter.fromParents p1 p2 rng = some (child, rng') ∧
      child.movement_steps = [s0, s1, s2] ∧
      (s0 = a0.start ∨ s0 = b0.start) ∧ (s1 = a1 ∨ s1 = b1) ∧ (s2 = a2 ∨ s2 = b2) ∧
      s0.counter = s0.length := by
  obtain ⟨dp, d0, d1, d2, dc, rng', h⟩ :=
    Critter.fromParents_spec p1 p2 rng a0 a1 a2 b0 b1 b2 h1 h2
  refine ⟨_, rng', _, _, _, h, rfl, ?_, EITHER_PARENT_cases d1 a1 b1,
    EITHER_PARENT_cases d2 a2 b2, rfl⟩
  rcases EITHER_PARENT_cases d0 a0 b0 with h | h <;> simp [h]

/-- Witness for C3: two copies of `runningParent`. -/
theorem C3_offspring_slots_witness :
    runningParent.movement_steps = [runningStep, runningStep, runningStep] ∧
    ∃ child rng' s0 s1 s2,
      Critter.fromParents runningParent runningParent exampleRng = some (child, rng') ∧
      child.movement_steps = [s0, s1, s2] ∧
      (s0 = runningStep.start ∨ s0 = runningStep.start) ∧
      (s1 = runningStep ∨ s1 = runningStep) ∧ (s2 = runningStep ∨ s2 = runningStep) ∧
      s0.counter = s0.length :=
  ⟨rfl, C3_offspring_slots runningParent runningParent exampleRng runningStep runningStep
    runningStep runningStep runningStep runningStep rfl rfl⟩

/-! ## The food pool: claims C5 and C6 -/

theorem find_if_le {α : Type} (p : α → Bool) (l : List α) : find_if p l ≤ l.length := by
  induction l with
  | nil => simp [find_if]
  | cons a l ih => simp only [find_if]; split <;> simp; omega

theorem find_if_eq_length {α : Type} (p : α → Bool) (l : List α) :
    find_if p l = l.length ↔ ∀ a ∈ l, p a = false := by
  induction l with
  | nil => simp [find_if]
  | cons a l ih =>
    simp only [find_if]
    by_cases h : p a = true
    · simp [h]
    · simp [h, ih]

theorem find_if_split {α : Type} (p : α → Bool) (l : List α) (h : find_if p l ≠ l.length) :
    ∃ l1 a l2, l = l1 ++ a :: l2 ∧ (∀ b ∈ l1, p b = false) ∧ p a = true ∧
      l.eraseIdx (find_if p l) = l1 ++ l2 := by
  induction l with
  | nil => simp [find_if] at h
  | cons x l ih =>
    by_cases hx : p x = true
    · exact ⟨[], x, l, rfl, by simp, hx, by simp [find_if, hx]⟩
    · have hl : find_if p l ≠ l.length := by
        intro hc; apply h; simp [find_if, hx, hc]
      obtain ⟨l1, a, l2, hl1, hn, ha, he⟩ := ih hl
      refine ⟨x :: l1, a, l2, by rw [hl1]; rfl, ?_, ha, ?_⟩
      · intro b hb
        rcases List.mem_cons.mp hb with rfl | hb
        · simpa using hx
        · exact hn b hb
      · simp [find_if, hx, he]

theorem Foods.try_to_eat_none (lib : Library) (fs : Foods) (box : FloatRect) (rng : Rng)
    (h : ∀ f ∈ fs.foods, lib.contains box f.position = false) :
    fs.try_to_eat lib box rng = (false, fs, rng) := by
  have := (find_if_eq_length (fun food : Food => lib.contains box food.position) fs.foods).mpr h
  simp [Foods.try_to_eat, this]

theorem Foods.try_to_eat_some (lib : Library) (fs : Foods) (box : FloatRect) (rng : Rng)
    (h : find_if (fun food : Food => lib.contains box food.position) fs.foods ≠ fs.foods.length) :
    fs.try_to_eat lib box rng =
      (true, ⟨fs.foods.eraseIdx
        (find_if (fun food : Food => lib.contains box food.position) fs.foods) ++
          [(Food.new rng).1]⟩, (Food.new rng).2) := by
  simp [Foods.try_to_eat, h]

/-- C5: `try_to_eat` returns true exactly when some pool point is contained in the
rectangle; when it returns true the new pool is the old pool with the first contained point
in storage order removed, the other points kept in order, and one freshly placed point
appended at the end; when it returns false the pool (and the random engine) is unchanged. -/
theorem C5_try_to_eat (lib : Library) (fs : Foods) (box : FloatRect) (rng : Rng) :
    ((fs.try_to_eat lib box rng).1 = true ↔
      ∃ f ∈ fs.foods, lib.contains box f.position = true) ∧
    ((fs.try_to_eat lib box rng).1 = true →
      ∃ l1 f l2, fs.foods = l1 ++ f :: l2 ∧
        (∀ g ∈ l1, lib.contains box g.position = false) ∧
        lib.contains box f.position = true ∧
        (fs.try_to_eat lib box rng).2.1.foods = l1 ++ l2 ++ [(Food.new rng).1] ∧
        (fs.try_to_eat lib box rng).2.2 = (Food.new rng).2) ∧
    ((fs.try_to_eat lib box rng).1 = false →
      (fs.try_to_eat lib box rng).2.1 = fs ∧ (fs.try_to_eat lib box rng).2.2 = rng) := by
  by_cases h : find_if (fun food : Food => lib.contains box food.position) fs.foods
      = fs.foods.length
  · have hn := (find_if_eq_length _ _).mp h
    rw [Foods.try_to_eat_none lib fs box rng hn]
    refine ⟨?_, by simp, by simp⟩
    simp only [Bool.false_eq_true, false_iff, not_exists, not_and]
    intro f hf; simpa using hn f hf
  · rw [Foods.try_to_eat_some lib fs box rng h]
    obtain ⟨l1, f, l2, hl, hn, hf, he⟩ := find_if_split _ _ h
    refine ⟨?_, fun _ => ⟨l1, f, l2, hl, hn, hf, by simp [he], rfl⟩, by simp⟩
    simp only [true_iff]
    exact ⟨f, by rw [hl]; simp, hf⟩

theorem Foods.try_to_eat_length (lib : Library) (fs : Foods) (box : FloatRect) (rng : Rng) :
    (fs.try_to_eat lib box rng).2.1.foods.length = fs.foods.length := by
  by_cases h : find_if (fun food : Food => lib.contains box food.position) fs.foods
      = fs.foods.length
  · rw [Foods.try_to_eat_none lib fs box rng ((find_if_eq_length _ _).mp h)]
  · rw [Foods.try_to_eat_some lib fs box rng h]
    obtain ⟨l1, f, l2, hl, -, -, he⟩ := find_if_split _ _ h
    simp only [he]; rw [hl]; simp

/-- C6: every finite sequence of `try_to_eat` calls, with arbitrary rectangles and whether
the calls succeed or fail, leaves the number of points in the pool unchanged; and a pool
whose single point lies inside the queried rectangle reports success and holds exactly one
point afterwards. -/
theorem C6_pool_size_invariant (lib : Library) (boxes : List FloatRect) (fs : Foods)
    (rng : Rng) :
    (Foods.eatAll lib boxes fs rng).1.foods.length = fs.foods.length ∧
    ∀ (f : Food) (box : FloatRect), lib.contains box f.position = true →
      ((⟨[f]⟩ : Foods).try_to_eat lib box rng).1 = true ∧
      ((⟨[f]⟩ : Foods).try_to_eat lib box rng).2.1.foods.length = 1 := by
  constructor
  · induction boxes generalizing fs rng with
    | nil => rfl
    | cons box boxes ih =>
      simp only [Foods.eatAll]
      rw [ih, Foods.try_to_eat_length]
  · intro f box hf
    refine ⟨?_, Foods.try_to_eat_length lib ⟨[f]⟩ box rng⟩
    simp [Foods.try_to_eat, find_if, hf]

/-! ## Mating eligibility: claims C9 and C10 -/

theorem Critter.canMate_iff (cfg : Config) (c : Critter) :
    c.canMate cfg = true ↔
      cfg.AGE_LIMIT.tdiv 4 ≤ c.age ∧ c.age ≤ cfg.AGE_LIMIT.tdiv 4 * 3 ∧
        (cfg.MATE_HEALTH : ℚ) ≤ c.health ∧ c.bred = false := by
  simp [Critter.canMate, and_assoc]

theorem Critter.canMate_of_bred (cfg : Config) (c : Critter) (h : c.bred = true) :
    c.canMate cfg = false := by
  simp [Critter.canMate, h]

unseal Rat.add Rat.mul Rat.inv Rat.sub in
/-- C9, counterexample: with age limit 2002 a critter aged 1501 with health 300 that has not
bred satisfies `L/4 ≤ age ≤ 3*L/4` (3*2002/4 is 1501 in integer arithmetic and 1501.5 in
exact arithmetic), `health ≥ M` and `not bred`, yet `canMate` returns false: the code's
upper bound is `(2002/4)*3 = 1500`. -/
theorem C9_canMate_rejects_age_1501_of_2002 :
    lateCritter.canMate oddLimits = false ∧
    oddLimits.AGE_LIMIT / 4 ≤ lateCritter.age ∧
    lateCritter.age ≤ 3 * oddLimits.AGE_LIMIT / 4 ∧
    ((oddLimits.AGE_LIMIT : ℚ) / 4 ≤ lateCritter.age ∧
      (lateCritter.age : ℚ) ≤ 3 * oddLimits.AGE_LIMIT / 4) ∧
    (oddLimits.MATE_HEALTH : ℚ) ≤ lateCritter.health ∧
    lateCritter.bred = false := by
  decide

/-- C9, amended: for every age limit `L ≥ 0`, mating minimum `M` and critter state,
`canMate` returns true if and only if `L/4 ≤ age ≤ 3*(L/4)` with `/` the integer division
of the code (both bounds inclusive, the upper bound being three times the truncated
quarter), `health ≥ M`, and the flag `bred` is false. -/
theorem C9_canMate_iff (cfg : Config) (c : Critter) (hL : 0 ≤ cfg.AGE_LIMIT) :
    c.canMate cfg = true ↔
      cfg.AGE_LIMIT / 4 ≤ c.age ∧ c.age ≤ 3 * (cfg.AGE_LIMIT / 4) ∧
        (cfg.MATE_HEALTH : ℚ) ≤ c.health ∧ c.bred = false := by
  rw [Critter.canMate_iff, Int.tdiv_eq_ediv hL (by norm_num), mul_comm]

unseal Rat.add Rat.mul Rat.inv Rat.sub in
/-- Witness for C9: `stillCritter`, aged 500 with health 300, under the default limits. -/
theorem C9_canMate_iff_witness :
    0 ≤ ({} : Config).AGE_LIMIT ∧
    (stillCritter.canMate {} = true ↔
      ({} : Config).AGE_LIMIT / 4 ≤ stillCritter.age ∧
        stillCritter.age ≤ 3 * (({} : Config).AGE_LIMIT / 4) ∧
        ((({} : Config).MATE_HEALTH : Int) : ℚ) ≤ stillCritter.health ∧
        stillCritter.bred = false) :=
  ⟨by decide, C9_canMate_iff {} stillCritter (by decide)⟩

theorem Critter.staysBred_refl (c : Critter) : Critter.staysBred c c :=
  fun h => ⟨h, fun cfg => Critter.canMate_of_bred cfg c h⟩

theorem Critter.staysBred_of_bred {c c' : Critter} (h : c.bred = true → c'.bred = true) :
    Critter.staysBred c c' :=
  fun hb => ⟨h hb, fun cfg => Critter.canMate_of_bred cfg c' (h hb)⟩

theorem Critter.staysBred_trans {a b c : Critter} (h1 : Critter.staysBred a b)
    (h2 : Critter.staysBred b c) : Critter.staysBred a c :=
  fun h => h2 (h1 h).1

theorem Critter.forall₂_staysBred_refl (l : List Critter) :
    List.Forall₂ Critter.staysBred l l := by
  induction l with
  | nil => exact List.Forall₂.nil
  | cons a l ih => exact List.Forall₂.cons (Critter.staysBred_refl a) ih

theorem Critter.forall₂_staysBred_trans {l1 l2 l3 : List Critter}
    (h1 : List.Forall₂ Critter.staysBred l1 l2) (h2 : List.Forall₂ Critter.staysBred l2 l3) :
    List.Forall₂ Critter.staysBred l1 l3 := by
  induction h1 generalizing l3 with
  | nil => cases h2; exact List.Forall₂.nil
  | cons hab _ ih =>
    cases h2 with
    | cons hbc htl => exact List.Forall₂.cons (Critter.staysBred_trans hab hbc) (ih htl)

theorem Critter.forall₂_staysBred_split (l1 l2 l' : List Critter)
    (h : List.Forall₂ Critter.staysBred (l1 ++ l2) l') :
    ∃ l1' l2', l' = l1' ++ l2' ∧ List.Forall₂ Critter.staysBred l2 l2' := by
  induction l1 generalizing l' with
  | nil => exact ⟨[], l', rfl, h⟩
  | cons a l1 ih =>
    rw [List.cons_append] at h
    cases h with
    | cons hab htl =>
      obtain ⟨l1', l2', hl, h2⟩ := ih _ htl
      exact ⟨_ :: l1', l2', by rw [hl]; rfl, h2⟩

theorem Population.updateAt_spec (lib : Library) (cfg : Config) (i : Nat) (p : Population)
    (hw : ∀ c ∈ p.critters, c.wf) :
    ∃ p' new old', p.updateAt lib cfg i = some p' ∧ p'.critters = new ++ old' ∧
      List.Forall₂ Critter.staysBred p.critters old' ∧ ∀ c ∈ p'.critters, c.wf := by
  unfold Population.updateAt
  split
  · exact ⟨p, [], p.critters, rfl, rfl, Critter.forall₂_staysBred_refl _, hw⟩
  · rename_i self after hdrop
    have hsplit : p.critters = p.critters.take i ++ self :: after := by
      rw [← hdrop, List.take_append_drop]
    have hwf : World.wf ⟨p.foods, p.critters.take i, self, after, p.rng⟩ := by
      refine ⟨fun c hc => hw c (List.mem_of_mem_take hc), hw self ?_, fun c hc => hw c ?_⟩
      · rw [hsplit]; simp
      · rw [hsplit]; simp [hc]
    obtain ⟨-, -, alive, w', -, -, hupd, hw', -, -, -, -, -, hbred, ⟨new, b', hbef, hfb, -⟩, haft⟩ :=
      Critter.update_spec lib cfg _ hwf
    refine ⟨⟨w'.foods, w'.critters, w'.rng⟩, new, b' ++ w'.self :: w'.after, by simp [hupd], ?_,
      ?_, ?_⟩
    · simp [World.critters, hbef]
    · rw [hsplit]
      refine List.rel_append
        (hfb.imp fun a b hab => Critter.staysBred_of_bred (Critter.bredOnly_bred hab))
        (List.Forall₂.cons (Critter.staysBred_of_bred hbred)
          (haft.imp fun a b hab => Critter.staysBred_of_bred (Critter.bredOnly_bred hab)))
    · intro c hc
      simp only [World.critters] at hc
      rcases List.mem_append.mp hc with h | h
      · exact hw'.1 c h
      · rcases List.mem_cons.mp h with rfl | h
        · exact hw'.2.1
        · exact hw'.2.2 c h

/-- C10: for every sequence of `update` calls on critters of the list (a critter's own
calls and other critters' calls alike), every call returns; the critters of the initial
list are, in order, the tail of the final list, the offspring having been pushed in front
of them; and each critter whose flag `bred` was true at the start still has it true at the
end and `canMate` returns false for it under every age limit and mating minimum, whatever
its age and health. -/
theorem C10_bred_is_permanent (lib : Library) (cfg : Config) (calls : List Nat)
    (p : Population) (hw : ∀ c ∈ p.critters, c.wf) :
    ∃ p' new old', Population.updatesAt lib cfg calls p = some p' ∧
      p'.critters = new ++ old' ∧ List.Forall₂ Critter.staysBred p.critters old' := by
  induction calls generalizing p with
  | nil => exact ⟨p, [], p.critters, rfl, rfl, Critter.forall₂_staysBred_refl _⟩
  | cons i rest ih =>
    obtain ⟨p1, new1, old1, h1, hc1, hf1, hw1⟩ := Population.updateAt_spec lib cfg i p hw
    obtain ⟨p2, new2, old2, h2, hc2, hf2⟩ := ih p1 hw1
    rw [hc1] at hf2
    obtain ⟨l1', l2', hl, hf3⟩ := Critter.forall₂_staysBred_split new1 old1 old2 hf2
    refine ⟨p2, new2 ++ l1', l2', by simp [Population.updatesAt, h1, h2], ?_,
      Critter.forall₂_staysBred_trans hf1 hf3⟩
    rw [hc2, hl, List.append_assoc]

/-- Witness for C10: five calls on a list of a critter that has bred and one that has not. -/
theorem C10_bred_is_permanent_witness :
    (∀ c ∈ mixedPopulation.critters, c.wf) ∧
    ∃ p' new old', Population.updatesAt exampleLib {} [0, 1, 1, 0, 2] mixedPopulation = some p' ∧
      p'.critters = new ++ old' ∧
      List.Forall₂ Critter.staysBred mixedPopulation.critters old' :=
  ⟨by decide, C10_bred_is_permanent exampleLib {} [0, 1, 1, 0, 2] mixedPopulation (by decide)⟩

/-! ## Mating: claims C7 and C8 -/

set_option maxRecDepth 1000000 in
unseal Rat.add Rat.mul Rat.inv Rat.sub in
/-- C7, the code at the failing input: three eligible critters at the same position, aged
500 with health 300 under the default limits. One `update` call on the first returns alive
and pushes two offspring to the front of the list, one for each of the two others, and
all three have `bred` set afterwards. -/
theorem C7_one_update_mates_twice :
    (Critter.update exampleLib {} crowdedWorld).map
        (fun r => (r.1, r.2.before.length, r.2.self.bred, r.2.after.map Critter.bred)) =
      some (true, 2, true, [true, true]) := by
  decide

set_option maxRecDepth 1000000 in
unseal Rat.add Rat.mul Rat.inv Rat.sub in
/-- C8, counterexample: two critters at the same position (their bounding boxes intersect),
aged 500 with health 300 and `bred` false, under the default limits and with an empty food
pool, each moving by (1, 0). After one frame the list still holds two critters, both with
health 299 and `bred` false: the movement cost is charged before eligibility is tested. -/
theorem C8_walking_pair_does_not_mate :
    walkCritter.age = 500 ∧ walkCritter.health = 300 ∧ walkCritter.bred = false ∧
    exampleLib.intersects (exampleLib.getGlobalBounds walkCritter.shape)
      (exampleLib.getGlobalBounds walkCritter.shape) = true ∧
    (frame exampleLib {} ⟨[]⟩ [walkCritter, walkCritter] exampleRng).map
        (fun r => r.2.1.map (fun c => (c.age, c.health, c.bred))) =
      some [(501, 299, false), (501, 299, false)] := by
  decide

theorem Critter.update_rest_alive (lib : Library) (cfg : Config) (movement : Vector2)
    (self : Critter) (w : World) (st : Scan) (before after : List Critter)
    (hage : self.age + 1 < cfg.AGE_LIMIT)
    (hfood : ∀ f ∈ w.foods.foods, lib.contains (lib.getGlobalBounds self.shape) f.position = false)
    (hmate : Critter.update_mating lib cfg w.before
      { self with age := self.age + 1,
                  health := self.health - (lib.abs movement.x + lib.abs movement.y) }
      w.after w.rng = some (st, before, after)) :
    Critter.update_rest lib cfg movement self w =
      some (true, { foods := w.foods, before := st.pushed ++ before,
                    self := Critter.update_place lib movement st.self, after := after,
                    rng := st.rng }) := by
  have h1 : ¬ (self.age + 1 ≥ cfg.AGE_LIMIT) := by omega
  simp only [Critter.update_rest, h1, if_false]
  rw [Foods.try_to_eat_none lib w.foods _ w.rng hfood]
  simp [hmate]

theorem Critter.update_rest_quiet (lib : Library) (cfg : Config) (movement : Vector2)
    (self : Critter) (w : World)
    (hage : self.age + 1 < cfg.AGE_LIMIT) (hbred : self.bred = true)
    (hfood : ∀ f ∈ w.foods.foods, lib.contains (lib.getGlobalBounds self.shape) f.position = false) :
    Critter.update_rest lib cfg movement self w =
      some (true, { foods := w.foods, before := w.before,
                    self := Critter.update_place lib movement
                      { self with age := self.age + 1,
                                  health := self.health - (lib.abs movement.x + lib.abs movement.y) },
                    after := w.after, rng := w.rng }) := by
  rw [Critter.update_rest_alive lib cfg movement self w
    ⟨[], { self with age := self.age + 1,
                     health := self.health - (lib.abs movement.x + lib.abs movement.y) }, w.rng⟩
    w.before w.after hage hfood]
  · simp
  · simp [Critter.update_mating, Critter.canMate, hbred]

/-- C8, amended: for every list of exactly two critters whose bounding boxes intersect,
with age limit 2000 and mating minimum 300, both aged 500 with health 300 and `bred` false,
with no food inside their bounding boxes, and with the first critter's displacement in
this frame costing no health (so that its health is still 300 when its eligibility is
tested), one frame's update pass returns, leaves the food pool unchanged, puts exactly one
new critter at the front of the list, and leaves both parents, now aged 501, with `bred`
true. -/
theorem C8_pair_mates_once (lib : Library) (cfg : Config) (foods : Foods) (c1 c2 : Critter)
    (rng : Rng) (hL : cfg.AGE_LIMIT = 2000) (hM : cfg.MATE_HEALTH = 300)
    (hw1 : c1.wf) (hw2 : c2.wf) (ha1 : c1.age = 500) (ha2 : c2.age = 500)
    (hh1 : c1.health = 300) (hh2 : c2.health = 300)
    (hb1 : c1.bred = false) (hb2 : c2.bred = false)
    (hint : lib.intersects (lib.getGlobalBounds c1.shape) (lib.getGlobalBounds c2.shape) = true)
    (hf1 : ∀ f ∈ foods.foods, lib.contains (lib.getGlobalBounds c1.shape) f.position = false)
    (hf2 : ∀ f ∈ foods.foods, lib.contains (lib.getGlobalBounds c2.shape) f.position = false)
    (hcost : ∀ m c, c1.update_movement lib = some (m, c) → lib.abs m.x + lib.abs m.y ≤ 0) :
    ∃ child p1 p2 rng',
      frame lib cfg foods [c1, c2] rng = some (foods, [child, p1, p2], rng') ∧
      child.age = 0 ∧ child.bred = false ∧
      p1.age = 501 ∧ p1.bred = true ∧ p2.age = 501 ∧ p2.bred = true := by
  -- first critter
  obtain ⟨m1, s1, hmov1, hwf1, hfld1, -, -⟩ := Critter.update_movement_spec lib c1 hw1
  have hc := hcost m1 s1 hmov1
  have e1 : s1.age = 500 := by rw [hfld1]; exact ha1
  have e2 : s1.health = 300 := by rw [hfld1]; exact hh1
  have e3 : s1.bred = false := by rw [hfld1]; exact hb1
  have e4 : s1.shape = c1.shape := by rw [hfld1]
  let self2 : Critter :=
    { s1 with age := s1.age + 1, health := s1.health - (lib.abs m1.x + lib.abs m1.y) }
  have hwf2 : self2.wf := hwf1
  obtain ⟨child, rng', hchild, -, hcb, hca, -⟩ := Critter.fromParents_wf self2 c2 rng hwf2 hw2
  have hcan1 : self2.canMate cfg = true := by
    rw [Critter.canMate_iff, hL, hM]
    refine ⟨by show _ ≤ s1.age + 1; rw [e1]; decide, by show s1.age + 1 ≤ _; rw [e1]; decide,
      ?_, e3⟩
    show _ ≤ s1.health - (lib.abs m1.x + lib.abs m1.y)
    rw [e2]; push_cast; linarith
  have hcan2 : c2.canMate cfg = true := by
    rw [Critter.canMate_iff, hL, hM, ha2, hh2]
    exact ⟨by decide, by decide, by norm_num, hb2⟩
  have hmate1 : Critter.update_mating lib cfg [] self2 [c2] rng =
      some (⟨[child], self2.setBred, rng'⟩, [], [c2.setBred]) := by
    have hint' : lib.intersects (lib.getGlobalBounds self2.shape)
        (lib.getGlobalBounds c2.shape) = true := by
      show lib.intersects (lib.getGlobalBounds s1.shape) _ = true
      rw [e4]; exact hint
    simp [Critter.update_mating, hcan1, Critter.update_scan, Critter.update_mate, hint', hcan2,
      hchild]
  have hupd1 : Critter.update lib cfg ⟨foods, [], c1, [c2], rng⟩ =
      some (true, ⟨foods, [child], Critter.update_place lib m1 self2.setBred, [c2.setBred],
        rng'⟩) := by
    simp only [Critter.update, hmov1, Option.bind_eq_bind, Option.some_bind]
    rw [Critter.update_rest_alive lib cfg m1 s1 ⟨foods, [], c1, [c2], rng⟩
      ⟨[child], self2.setBred, rng'⟩ [] [c2.setBred] (by rw [e1, hL]; decide)
      (by rw [e4]; exact hf1) hmate1]
    rfl
  -- second critter
  obtain ⟨m2, s2, hmov2, -, hfld2, -, -⟩ :=
    Critter.update_movement_spec lib c2.setBred (Critter.bredOnly_wf (Critter.bredOnly_setBred c2) hw2)
  have g1 : s2.age = 500 := by rw [hfld2]; exact ha2
  have g3 : s2.bred = true := by rw [hfld2]; rfl
  have g4 : s2.shape = c2.shape := by rw [hfld2]; rfl
  let p1 : Critter := (Critter.update_place lib m1 self2.setBred).draw
  let self3 : Critter :=
    { s2 with age := s2.age + 1, health := s2.health - (lib.abs m2.x + lib.abs m2.y) }
  have hupd2 : Critter.update lib cfg ⟨foods, [child] ++ [p1], c2.setBred, [], rng'⟩ =
      some (true, ⟨foods, [child] ++ [p1], Critter.update_place lib m2 self3, [], rng'⟩) := by
    simp only [Critter.update, hmov2, Option.bind_eq_bind, Option.some_bind]
    rw [Critter.update_rest_quiet lib cfg m2 s2 _ (by rw [g1, hL]; decide) g3
      (by rw [g4]; exact hf2)]
  have hp1 := Critter.update_place_fields lib m1 self2.setBred
  have hp2 := Critter.update_place_fields lib m2 self3
  refine ⟨child, p1, (Critter.update_place lib m2 self3).draw, rng', ?_, hca, hcb,
    ?_, ?_, ?_, ?_⟩
  · simp only [frame, List.length_cons, List.length_nil, updateLoop, hupd1, hupd2,
      Option.bind_eq_bind, Option.some_bind]
    simp [p1]
  · show (Critter.update_place lib m1 self2.setBred).age = 501
    rw [hp1.2.2.1]; show s1.age + 1 = 501; rw [e1]; rfl
  · show (Critter.update_place lib m1 self2.setBred).bred = true
    rw [hp1.2.2.2.1]; rfl
  · show (Critter.update_place lib m2 self3).age = 501
    rw [hp2.2.2.1]; show s2.age + 1 = 501; rw [g1]; rfl
  · show (Critter.update_place lib m2 self3).bred = true
    rw [hp2.2.2.2.1]; exact g3

set_option maxRecDepth 1000000 in
unseal Rat.add Rat.mul Rat.inv Rat.sub in
theorem stillCritter_update_movement :
    stillCritter.update_movement exampleLib =
      some (⟨0, 0⟩, { stillCritter with movement_steps :=
        [stillStep.start.tick, stillStep.start, stillStep.start] }) := by
  decide

set_option maxRecDepth 1000000 in
unseal Rat.add Rat.mul Rat.inv Rat.sub in
/-- Witness for C8: two copies of `stillCritter`, which does not move, with an empty food
pool under the default limits. -/
theorem C8_pair_mates_once_witness :
    ({} : Config).AGE_LIMIT = 2000 ∧ ({} : Config).MATE_HEALTH = 300 ∧
    stillCritter.age = 500 ∧ stillCritter.health = 300 ∧ stillCritter.bred = false ∧
    ∃ child p1 p2 rng',
      frame exampleLib {} ⟨[]⟩ [stillCritter, stillCritter] exampleRng =
        some (⟨[]⟩, [child, p1, p2], rng') ∧
      child.age = 0 ∧ child.bred = false ∧
      p1.age = 501 ∧ p1.bred = true ∧ p2.age = 501 ∧ p2.bred = true :=
  ⟨rfl, rfl, rfl, rfl, rfl,
    C8_pair_mates_once exampleLib {} ⟨[]⟩ stillCritter stillCritter exampleRng rfl rfl
      (by decide) (by decide) rfl rfl rfl rfl rfl rfl (by decide)
      (by intro f hf; cases hf) (by intro f hf; cases hf)
      (by
        intro m c h
        rw [stillCritter_update_movement] at h
        cases h
        decide)⟩

/-! ## Position, health and the dying critter: claims C11, C12 and C19 -/

theorem Critter.update_place_position (lib : Library) (m : Vector2) (c : Critter) :
    (Critter.update_place lib m c).position.x =
      (if c.position.x + m.x < 0 then 800 else if c.position.x + m.x > 800 then 0
        else c.position.x + m.x) ∧
    (Critter.update_place lib m c).position.y =
      (if c.position.y + m.y < 0 then 600 else if c.position.y + m.y > 600 then 0
        else c.position.y + m.y) := by
  simp only [Critter.update_place]
  constructor <;> split_ifs <;> simp_all

/-- The dying call: only the age and the health of `*this` are written. -/
theorem Critter.update_rest_dead (lib : Library) (cfg : Config) (movement : Vector2)
    (self : Critter) (w : World) (hage : self.age + 1 ≥ cfg.AGE_LIMIT) :
    Critter.update_rest lib cfg movement self w =
      some (false, { w with self := { self with age := self.age + 1, health := self.health - (lib.abs movement.x + lib.abs movement.y) } }) := by
  simp [Critter.update_rest, hage]

/-- The surviving call: the world afterwards in terms of the outcome of `try_to_eat` and of
the mating scan. -/
theorem Critter.update_rest_alive_spec (lib : Library) (cfg : Config) (movement : Vector2)
    (self : Critter) (w : World) (hb : ∀ c ∈ w.before, c.wf) (hs : self.wf)
    (ha : ∀ c ∈ w.after, c.wf) (hage : self.age + 1 < cfg.AGE_LIMIT) :
    ∃ (st : Scan) (before' after' : List Critter),
      Critter.update_rest lib cfg movement self w =
        some (true,
          { foods := (w.foods.try_to_eat lib (lib.getGlobalBounds self.shape) w.rng).2.1,
            before := st.pushed ++ before',
            self := Critter.update_place lib movement st.self,
            after := after', rng := st.rng }) ∧
      st.self.position = self.position ∧
      st.self.health = self.health - (lib.abs movement.x + lib.abs movement.y) +
        (if (w.foods.try_to_eat lib (lib.getGlobalBounds self.shape) w.rng).1 = true
          then (cfg.FOOD_POWER : ℚ) else 0) := by
  have h1 : ¬ (self.age + 1 ≥ cfg.AGE_LIMIT) := by omega
  simp only [Critter.update_rest, h1, if_false]
  generalize hself : (if (w.foods.try_to_eat lib (lib.getGlobalBounds self.shape) w.rng).1 = true
    then _ else _ : Critter) = self2
  have h2 : self2.position = self.position ∧ self2.movement_steps = self.movement_steps ∧
      self2.current_step = self.current_step ∧
      self2.health = self.health - (lib.abs movement.x + lib.abs movement.y) +
        (if (w.foods.try_to_eat lib (lib.getGlobalBounds self.shape) w.rng).1 = true
          then (cfg.FOOD_POWER : ℚ) else 0) := by
    rw [← hself]; split <;> simp
  have hs2 : self2.wf := by
    obtain ⟨_, hm, hc, _⟩ := h2
    unfold Critter.wf at hs ⊢
    rw [hm, hc]; exact hs
  obtain ⟨st, b', a', hmate, -, hfs, -, -, -⟩ :=
    Critter.update_mating_spec lib cfg w.before w.after self2
      (w.foods.try_to_eat lib (lib.getGlobalBounds self.shape) w.rng).2.2 hb hs2 ha
  have hst := Critter.bredOnly_fields hfs
  refine ⟨st, b', a', by simp [hmate], ?_, ?_⟩
  · rw [hst]; exact h2.1
  · rw [hst]; exact h2.2.2.2

set_option maxRecDepth 1000000 in
unseal Rat.add Rat.mul Rat.inv Rat.sub in
/-- C11, counterexample: a critter at x = 799 whose displacement is (1, 0), updated alive.
The coordinate before wrapping is x' = 800, which is not in [0, 800), yet the new x is 800
and not 0: the code tests `position.x > 800`. -/
theorem C11_x_800_is_not_wrapped :
    (edgeCritter.update_movement exampleLib).map (fun r => edgeCritter.position.x + r.1.x) =
      some 800 ∧
    (Critter.update exampleLib {} edgeWorld).map (fun r => (r.1, r.2.self.position.x)) =
      some (true, 800) ∧
    (800 : ℚ) ≥ 800 ∧ (800 : ℚ) ≠ 0 := by
  decide

/-- C11, amended: for every alive update, with x' = x + dx the coordinate before wrapping:
if x' lies in the closed interval [0, 800] the new x is x'; if x' < 0 the new x is 800; if
x' > 800 the new x is 0 (so -1 becomes 800 and 801 becomes 0, while 800 stays 800);
symmetrically for y with 600. -/
theorem C11_position_wrap (lib : Library) (cfg : Config) (w : World) (hw : w.wf)
    (hage : w.self.age + 1 < cfg.AGE_LIMIT) :
    ∃ movement self1 w',
      w.self.update_movement lib = some (movement, self1) ∧
      Critter.update lib cfg w = some (true, w') ∧
      (0 ≤ w.self.position.x + movement.x → w.self.position.x + movement.x ≤ 800 →
        w'.self.position.x = w.self.position.x + movement.x) ∧
      (w.self.position.x + movement.x < 0 → w'.self.position.x = 800) ∧
      (800 < w.self.position.x + movement.x → w'.self.position.x = 0) ∧
      (0 ≤ w.self.position.y + movement.y → w.self.position.y + movement.y ≤ 600 →
        w'.self.position.y = w.self.position.y + movement.y) ∧
      (w.self.position.y + movement.y < 0 → w'.self.position.y = 600) ∧
      (600 < w.self.position.y + movement.y → w'.self.position.y = 0) := by
  obtain ⟨hb, hs, ha⟩ := hw
  obtain ⟨movement, self1, hmov, hwf1, hfields, -, -⟩ :=
    Critter.update_movement_spec lib w.self hs
  have e1 : self1.age = w.self.age := by rw [hfields]
  have e2 : self1.position = w.self.position := by rw [hfields]
  obtain ⟨st, b', a', hrest, hpos, -⟩ :=
    Critter.update_rest_alive_spec lib cfg movement self1 w hb hwf1 ha (by rw [e1]; exact hage)
  have hupd : Critter.update lib cfg w = Critter.update_rest lib cfg movement self1 w := by
    simp [Critter.update, hmov]
  obtain ⟨hx, hy⟩ := Critter.update_place_position lib movement st.self
  rw [hpos, e2] at hx hy
  refine ⟨movement, self1, _, hmov, by rw [hupd, hrest], ?_, ?_, ?_, ?_, ?_, ?_⟩
  · intro h0 h8; show (Critter.update_place lib movement st.self).position.x = _
    rw [hx, if_neg (by linarith), if_neg (by linarith)]
  · intro h0; show (Critter.update_place lib movement st.self).position.x = _
    rw [hx, if_pos h0]
  · intro h8; show (Critter.update_place lib movement st.self).position.x = _
    rw [hx, if_neg (by linarith), if_pos h8]
  · intro h0 h8; show (Critter.update_place lib movement st.self).position.y = _
    rw [hy, if_neg (by linarith), if_neg (by linarith)]
  · intro h0; show (Critter.update_place lib movement st.self).position.y = _
    rw [hy, if_pos h0]
  · intro h8; show (Critter.update_place lib movement st.self).position.y = _
    rw [hy, if_neg (by linarith), if_pos h8]

/-- Witness for C11: `edgeCritter`, aged 500, under the default limits. -/
theorem C11_position_wrap_witness :
    edgeWorld.wf ∧ edgeWorld.self.age + 1 < ({} : Config).AGE_LIMIT ∧
    ∃ movement self1 w',
      edgeWorld.self.update_movement exampleLib = some (movement, self1) ∧
      Critter.update exampleLib {} edgeWorld = some (true, w') ∧
      (0 ≤ edgeWorld.self.position.x + movement.x →
        edgeWorld.self.position.x + movement.x ≤ 800 →
        w'.self.position.x = edgeWorld.self.position.x + movement.x) ∧
      (edgeWorld.self.position.x + movement.x < 0 → w'.self.position.x = 800) ∧
      (800 < edgeWorld.self.position.x + movement.x → w'.self.position.x = 0) ∧
      (0 ≤ edgeWorld.self.position.y + movement.y →
        edgeWorld.self.position.y + movement.y ≤ 600 →
        w'.self.position.y = edgeWorld.self.position.y + movement.y) ∧
      (edgeWorld.self.position.y + movement.y < 0 → w'.self.position.y = 600) ∧
      (600 < edgeWorld.self.position.y + movement.y → w'.self.position.y = 0) :=
  ⟨by decide, by decide, C11_position_wrap exampleLib {} edgeWorld (by decide) (by decide)⟩

/-- C19: for every update call that reports dead (the incremented age has reached the age
limit), the call returns false, the age is incremented and the health is reduced by the
movement cost, while the critter's position and flag `bred`, the food pool, the random
engine and the rest of the list (so every other critter, its flag `bred` included, and no
critter added) are exactly as before the call. -/
theorem C19_dying_update (lib : Library) (cfg : Config) (w : World) (hs : w.self.wf)
    (hage : w.self.age + 1 ≥ cfg.AGE_LIMIT) :
    ∃ movement self1 w',
      w.self.update_movement lib = some (movement, self1) ∧
      Critter.update lib cfg w = some (false, w') ∧
      w'.self.age = w.self.age + 1 ∧
      w'.self.health = w.self.health - (lib.abs movement.x + lib.abs movement.y) ∧
      w'.self.position = w.self.position ∧ w'.self.bred = w.self.bred ∧
      w'.self.shape = w.self.shape ∧
      w'.foods = w.foods ∧ w'.before = w.before ∧ w'.after = w.after ∧ w'.rng = w.rng := by
  obtain ⟨movement, self1, hmov, -, hfields, -, -⟩ :=
    Critter.update_movement_spec lib w.self hs
  have e1 : self1.age = w.self.age := by rw [hfields]
  have e2 : self1.health = w.self.health := by rw [hfields]
  have e3 : self1.position = w.self.position := by rw [hfields]
  have e4 : self1.bred = w.self.bred := by rw [hfields]
  have e5 : self1.shape = w.self.shape := by rw [hfields]
  have hupd : Critter.update lib cfg w = Critter.update_rest lib cfg movement self1 w := by
    simp [Critter.update, hmov]
  have hrest := Critter.update_rest_dead lib cfg movement self1 w (by rw [e1]; exact hage)
  refine ⟨movement, self1, { w with self := { self1 with age := self1.age + 1, health := self1.health - (lib.abs movement.x + lib.abs movement.y) } }, hmov, by rw [hupd, hrest], ?_, ?_, e3, e4, e5, rfl, rfl, rfl, rfl⟩
  · show self1.age + 1 = _; rw [e1]
  · show self1.health - _ = _; rw [e2]

/-- Witness for C19: `stillCritter`, aged 500, under an age limit of 501. -/
theorem C19_dying_update_witness :
    stillWorld.self.wf ∧ stillWorld.self.age + 1 ≥ shortLimits.AGE_LIMIT ∧
    ∃ movement self1 w',
      stillWorld.self.update_movement exampleLib = some (movement, self1) ∧
      Critter.update exampleLib shortLimits stillWorld = some (false, w') ∧
      w'.self.age = stillWorld.self.age + 1 ∧
      w'.self.health =
        stillWorld.self.health - (exampleLib.abs movement.x + exampleLib.abs movement.y) ∧
      w'.self.position = stillWorld.self.position ∧ w'.self.bred = stillWorld.self.bred ∧
      w'.self.shape = stillWorld.self.shape ∧
      w'.foods = stillWorld.foods ∧ w'.before = stillWorld.before ∧
      w'.after = stillWorld.after ∧ w'.rng = stillWorld.rng :=
  ⟨by decide, by decide, C19_dying_update exampleLib shortLimits stillWorld (by decide)
    (by decide)⟩

/-! ## The step cursor: claim C20 -/

theorem Critter.forall₂_bredOnly_trans {l1 l2 l3 : List Critter}
    (h1 : List.Forall₂ Critter.bredOnly l1 l2) (h2 : List.Forall₂ Critter.bredOnly l2 l3) :
    List.Forall₂ Critter.bredOnly l1 l3 := by
  induction h1 generalizing l3 with
  | nil => cases h2; exact List.Forall₂.nil
  | cons hab _ ih =>
    cases h2 with
    | cons hbc htl => exact List.Forall₂.cons (Critter.bredOnly_trans hab hbc) (ih htl)

theorem Critter.forall₂_bredOnly_age {l l' : List Critter}
    (h : List.Forall₂ Critter.bredOnly l l') (L : Int) (hl : ∀ c ∈ l, c.age < L) :
    ∀ c ∈ l', c.age < L := by
  induction h with
  | nil => simp
  | cons hab _ ih =>
    intro c hc
    rcases List.mem_cons.mp hc with rfl | hc
    · have := hl _ (List.mem_cons_self _ _)
      rcases hab with rfl | rfl
      · exact this
      · exact this
    · exact ih (fun x hx => hl x (List.mem_cons_of_mem _ hx)) c hc

/-- The traced loop runs the loop: its second component is the result of `updateLoop`. -/
theorem updateLoopTrace_snd (lib : Library) (cfg : Config) :
    ∀ (n : Nat) (l : Loop),
      (updateLoopTrace lib cfg n l).map Prod.snd = updateLoop lib cfg n l := by
  intro n
  induction n with
  | zero =>
    intro l
    obtain ⟨foods, done, todo, rng⟩ := l
    cases todo <;> simp [updateLoopTrace, updateLoop]
  | succ n ih =>
    intro l
    obtain ⟨foods, done, todo, rng⟩ := l
    cases todo with
    | nil => simp [updateLoopTrace, updateLoop]
    | cons c rest =>
      simp only [updateLoopTrace, updateLoop]
      cases hu : Critter.update lib cfg ⟨foods, done, c, rest, rng⟩ with
      | none => simp
      | some r =>
        obtain ⟨alive, w⟩ := r
        cases alive
        · have := ih ⟨w.foods, w.before, w.after, w.rng⟩
          cases ht : updateLoopTrace lib cfg n ⟨w.foods, w.before, w.after, w.rng⟩ <;>
            simp [ht] at this ⊢ <;> simp [← this]
        · have := ih ⟨w.foods, w.before ++ [w.self.draw], w.after, w.rng⟩
          cases ht : updateLoopTrace lib cfg n
              ⟨w.foods, w.before ++ [w.self.draw], w.after, w.rng⟩ <;>
            simp [ht] at this ⊢ <;> simp [← this]

/-- The update loop over a list of well-formed critters returns after one iteration per
element of the part of the list not yet visited: the calls are made, in order, on those
elements (with at most their flag `bred` set in between), and with an age limit of at least
1 every critter of the list is below the age limit at the end when those already visited
were. -/
theorem updateLoopTrace_spec (lib : Library) (cfg : Config) :
    ∀ (n : Nat) (foods : Foods) (done todo : List Critter) (rng : Rng),
      todo.length = n → (∀ c ∈ done, c.wf) → (∀ c ∈ todo, c.wf) →
      ∃ calls l, updateLoopTrace lib cfg n ⟨foods, done, todo, rng⟩ = some (calls, l) ∧
        l.todo = [] ∧ List.Forall₂ Critter.bredOnly todo calls ∧ (∀ c ∈ l.done, c.wf) ∧
        (1 ≤ cfg.AGE_LIMIT → (∀ c ∈ done, c.age < cfg.AGE_LIMIT) →
          ∀ c ∈ l.done, c.age < cfg.AGE_LIMIT) := by
  intro n
  induction n with
  | zero =>
    intro foods done todo rng hlen hd _
    have : todo = [] := List.length_eq_zero.mp hlen
    subst this
    exact ⟨[], ⟨foods, done, [], rng⟩, by simp [updateLoopTrace], rfl, List.Forall₂.nil, hd,
      fun _ h => h⟩
  | succ n ih =>
    intro foods done todo rng hlen hd ht
    cases todo with
    | nil => simp at hlen
    | cons c rest =>
      have hw : World.wf ⟨foods, done, c, rest, rng⟩ :=
        ⟨hd, ht c (List.mem_cons_self _ _), fun x hx => ht x (List.mem_cons_of_mem _ hx)⟩
      obtain ⟨-, -, alive, w', -, -, hupd, hwf', halive, hage, -, -, -, -,
        ⟨new, before', hbef, hfb, hnew⟩, haft⟩ := Critter.update_spec lib cfg _ hw
      simp only at halive hage hfb haft
      have hlen' : w'.after.length = n := by
        rw [← haft.length_eq]; simpa using hlen
      have hbage : 1 ≤ cfg.AGE_LIMIT → (∀ x ∈ done, x.age < cfg.AGE_LIMIT) →
          ∀ x ∈ w'.before, x.age < cfg.AGE_LIMIT := by
        intro hL hdone x hx
        rw [hbef] at hx
        rcases List.mem_append.mp hx with h | h
        · rw [(hnew x h).2.2]; omega
        · exact Critter.forall₂_bredOnly_age hfb _ hdone x h
      cases alive with
      | false =>
        obtain ⟨calls, l, htr, htodo, hf, hwfl, hages⟩ :=
          ih w'.foods w'.before w'.after w'.rng hlen' hwf'.1 hwf'.2.2
        refine ⟨c :: calls, l, by simp [updateLoopTrace, hupd, htr], htodo,
          List.Forall₂.cons (Critter.bredOnly_refl c) (Critter.forall₂_bredOnly_trans haft hf),
          hwfl, fun hL hdone => hages hL (hbage hL hdone)⟩
      | true =>
        have hdwf : ∀ x ∈ w'.before ++ [w'.self.draw], x.wf := by
          intro x hx
          rcases List.mem_append.mp hx with h | h
          · exact hwf'.1 x h
          · rw [List.mem_singleton.mp h]; exact hwf'.2.1
        obtain ⟨calls, l, htr, htodo, hf, hwfl, hages⟩ :=
          ih w'.foods (w'.before ++ [w'.self.draw]) w'.after w'.rng hlen' hdwf hwf'.2.2
        refine ⟨c :: calls, l, by simp [updateLoopTrace, hupd, htr], htodo,
          List.Forall₂.cons (Critter.bredOnly_refl c) (Critter.forall₂_bredOnly_trans haft hf),
          hwfl, fun hL hdone => hages hL ?_⟩
        intro x hx
        rcases List.mem_append.mp hx with h | h
        · exact hbage hL hdone x h
        · rw [List.mem_singleton.mp h]
          have h1 : c.age + 1 < cfg.AGE_LIMIT := halive.mp rfl
          show w'.self.age < cfg.AGE_LIMIT
          rw [hage]; exact h1

theorem frames_spec (lib : Library) (cfg : Config) (hL : 1 ≤ cfg.AGE_LIMIT) :
    ∀ (n : Nat) (foods : Foods) (critters : List Critter) (rng : Rng),
      (∀ c ∈ critters, c.wf) → (∀ c ∈ critters, c.age < cfg.AGE_LIMIT) →
      ∃ foods' critters' rng', frames lib cfg n (foods, critters, rng) =
          some (foods', critters', rng') ∧
        (∀ c ∈ critters', c.wf) ∧ ∀ c ∈ critters', c.age < cfg.AGE_LIMIT := by
  intro n
  induction n with
  | zero =>
    intro foods critters rng hwf hage
    exact ⟨foods, critters, rng, rfl, hwf, hage⟩
  | succ n ih =>
    intro foods critters rng hwf hage
    obtain ⟨calls, l, htr, htodo, -, hwfl, hages⟩ :=
      updateLoopTrace_spec lib cfg critters.length foods [] critters rng rfl (by simp) hwf
    have hloop := updateLoopTrace_snd lib cfg critters.length ⟨foods, [], critters, rng⟩
    rw [htr] at hloop
    obtain ⟨foods', critters', rng', hfr, hwf', hage'⟩ :=
      ih l.foods l.done l.rng hwfl (hages hL (by simp))
    refine ⟨foods', critters', rng', ?_, hwf', hage'⟩
    simp [frames, frame, ← hloop, htodo, hfr]

/-- C13: for every food pool, random engine and list of well-formed critters at the start
of a frame, the update loop of the frame returns, and the `update` calls it makes are, in
order, one call on each critter of the list as it was at the start of the frame (the
receiver of the k-th call is the k-th critter of that list, with at most its flag `bred` set
by an earlier call of the frame). No other call is made, so none is made on a critter
created by mating during the frame, and the number of calls is the length of the list at
the start of the frame. -/
theorem C13_frame_updates_each_critter_once (lib : Library) (cfg : Config) (foods : Foods)
    (critters : List Critter) (rng : Rng) (hwf : ∀ c ∈ critters, c.wf) :
    ∃ calls l,
      updateLoopTrace lib cfg critters.length ⟨foods, [], critters, rng⟩ = some (calls, l) ∧
      updateLoop lib cfg critters.length ⟨foods, [], critters, rng⟩ = some l ∧
      frame lib cfg foods critters rng = some (l.foods, l.done, l.rng) ∧
      List.Forall₂ Critter.bredOnly critters calls ∧
      calls.length = critters.length := by
  obtain ⟨calls, l, htr, htodo, hf, -, -⟩ :=
    updateLoopTrace_spec lib cfg critters.length foods [] critters rng rfl (by simp) hwf
  have hloop := updateLoopTrace_snd lib cfg critters.length ⟨foods, [], critters, rng⟩
  rw [htr] at hloop
  refine ⟨calls, l, htr, hloop.symm, ?_, hf, hf.length_eq.symm⟩
  simp [frame, ← hloop, htodo]

/-- Witness for C13: a frame over three critters at the same position, in which the first
`update` call creates offspring. -/
theorem C13_frame_updates_each_critter_once_witness :
    (∀ c ∈ crowd, c.wf) ∧
    ∃ calls l,
      updateLoopTrace exampleLib {} crowd.length ⟨⟨[]⟩, [], crowd, exampleRng⟩ =
        some (calls, l) ∧
      updateLoop exampleLib {} crowd.length ⟨⟨[]⟩, [], crowd, exampleRng⟩ = some l ∧
      frame exampleLib {} ⟨[]⟩ crowd exampleRng = some (l.foods, l.done, l.rng) ∧
      List.Forall₂ Critter.bredOnly crowd calls ∧
      calls.length = crowd.length :=
  ⟨by decide, C13_frame_updates_each_critter_once exampleLib {} ⟨[]⟩ crowd exampleRng
    (by decide)⟩

set_option maxRecDepth 1000000 in
unseal Rat.add Rat.mul Rat.inv Rat.sub in
/-- The frame over `crowd` makes three `update` calls and leaves five critters in the list:
the two created by the first call are not updated in the frame. -/
theorem crowd_frame_counts :
    (updateLoopTrace exampleLib {} crowd.length ⟨⟨[]⟩, [], crowd, exampleRng⟩).map
      (fun r => (r.1.length, r.2.done.length)) = some (3, 5) := by
  decide

/-- C14: for every age limit L of at least 1 and every initial list of well-formed
critters of age 0, any number of complete frames returns, and afterwards every critter of
the list has age below L. -/
theorem C14_ages_stay_below_limit (lib : Library) (cfg : Config) (foods : Foods)
    (critters : List Critter) (rng : Rng) (hL : 1 ≤ cfg.AGE_LIMIT)
    (hwf : ∀ c ∈ critters, c.wf) (hage : ∀ c ∈ critters, c.age = 0) (n : Nat) :
    ∃ foods' critters' rng',
      frames lib cfg n (foods, critters, rng) = some (foods', critters', rng') ∧
      ∀ c ∈ critters', c.age < cfg.AGE_LIMIT := by
  obtain ⟨foods', critters', rng', hfr, -, hlt⟩ :=
    frames_spec lib cfg hL n foods critters rng hwf
      (fun c hc => by rw [hage c hc]; omega)
  exact ⟨foods', critters', rng', hfr, hlt⟩

/-- Witness for C14: three frames over two critters of age 0 under an age limit of 2. -/
theorem C14_ages_stay_below_limit_witness :
    1 ≤ briefLimits.AGE_LIMIT ∧ (∀ c ∈ [youngCritter, youngCritter], c.wf) ∧
    (∀ c ∈ [youngCritter, youngCritter], c.age = 0) ∧
    ∃ foods' critters' rng',
      frames exampleLib briefLimits 3 (⟨[]⟩, [youngCritter, youngCritter], exampleRng) =
        some (foods', critters', rng') ∧
      ∀ c ∈ critters', c.age < briefLimits.AGE_LIMIT :=
  ⟨by decide, by decide, by decide,
    C14_ages_stay_below_limit exampleLib briefLimits ⟨[]⟩ [youngCritter, youngCritter]
      exampleRng (by decide) (by decide) (by decide) 3⟩

/-! ## The random draws: claims C15 and C16 -/

/-- The values `rnd_uniform_1(rng)` returns are exactly the integers of the range
`[0, 2147483647]` of the distribution. -/
theorem rnd_uniform_1_range (d : Int) :
    (∃ rng : Rng, (rnd_uniform_1.draw rng).1 = d) ↔ d ∈ Finset.Icc (0 : Int) 2147483647 := by
  simp only [UniformInt.draw, rnd_uniform_1, Finset.mem_Icc]
  constructor
  · rintro ⟨rng, rfl⟩
    omega
  · intro h
    refine ⟨{ raw := fun _ => d.toNat, gauss := fun _ => 0 }, ?_⟩
    simp only
    omega

/-- C15: the values `rnd_uniform_1(rng)` can return are the 2147483648 integers from 0 to
2147483647; `EITHER_PARENT` selects the member of parent 1 for 2147483647 of them (every
value but 0) and the member of parent 2 for one of them (the value 0), not for half each;
with a draw of 1, for instance, parent 1 is selected. -/
theorem C15_either_parent_selects_parent2_for_one_draw :
    (∀ d : Int, (∃ rng : Rng, (rnd_uniform_1.draw rng).1 = d) ↔
      d ∈ Finset.Icc (0 : Int) 2147483647) ∧
    ((Finset.Icc (0 : Int) 2147483647).filter
      (fun d => EITHER_PARENT d true false = true)).card = 2147483647 ∧
    ((Finset.Icc (0 : Int) 2147483647).filter
      (fun d => EITHER_PARENT d true false = false)).card = 1 ∧
    EITHER_PARENT (rnd_uniform_1.draw oneRng).1 true false = true := by
  refine ⟨rnd_uniform_1_range, ?_, ?_, by decide⟩
  · have : (Finset.Icc (0 : Int) 2147483647).filter
        (fun d => EITHER_PARENT d true false = true) = Finset.Icc (1 : Int) 2147483647 := by
      ext d
      simp only [Finset.mem_filter, Finset.mem_Icc, EITHER_PARENT]
      constructor
      · rintro ⟨⟨h0, h1⟩, h⟩
        have : d ≠ 0 := by
          intro h2; simp [h2] at h
        omega
      · rintro ⟨h0, h1⟩
        have : d ≠ 0 := by omega
        simp [this]; omega
    rw [this, Int.card_Icc]
    rfl
  · have : (Finset.Icc (0 : Int) 2147483647).filter
        (fun d => EITHER_PARENT d true false = false) = {0} := by
      ext d
      simp only [Finset.mem_filter, Finset.mem_Icc, EITHER_PARENT, Finset.mem_singleton]
      constructor
      · rintro ⟨-, h⟩
        by_contra h2
        simp [h2] at h
      · rintro rfl
        simp
    rw [this]
    rfl

/-- C16, counterexample: with a raw outcome of 180 the step is constructed with length
200. -/
theorem C16_length_can_be_200 : (MovementStep.new longRng).1.length = 200 := by
  decide

/-- C16, amended: for every state of the random engine the length d of a constructed step
satisfies 20 <= d <= 200, and each of the 181 integers of that closed range, 200 included,
is the length constructed for some state of the engine. -/
theorem C16_length_range :
    (∀ rng : Rng, 20 ≤ (MovementStep.new rng).1.length ∧
      (MovementStep.new rng).1.length ≤ 200) ∧
    ∀ d : Int, 20 ≤ d → d ≤ 200 → ∃ rng : Rng, (MovementStep.new rng).1.length = d := by
  constructor
  · intro rng
    simp only [MovementStep.new, UniformInt.draw, Normal.draw, rnd_uniform_20_100]
    omega
  · intro d h1 h2
    refine ⟨{ raw := fun _ => (d - 20).toNat, gauss := fun _ => 0 }, ?_⟩
    simp only [MovementStep.new, UniformInt.draw, Normal.draw, rnd_uniform_20_100]
    omega

/-- Witness for C16: the length 200 is constructed for some state of the engine. -/
theorem C16_length_range_witness :
    (20 : Int) ≤ 200 ∧ (200 : Int) ≤ 200 ∧
    ∃ rng : Rng, (MovementStep.new rng).1.length = 200 :=
  ⟨by decide, by decide, C16_length_range.2 200 (by decide) (by decide)⟩

/-! ## Configuration: claims C17 and C18 -/

/-- C17: for the file content `age = 99999999999`, a matching key followed by eleven
digits, `load_config` does not complete: `std::stoi` throws `std::out_of_range`, which
nothing catches. -/
theorem C17_load_config_throws_on_long_digit_string :
    load_config (some "age = 99999999999".toList) {} = .error .out_of_range := by
  decide

/-- C18: for the file content `garbage = 5`, whose key is none of the five known keys,
`load_config` sets the age limit to 5: the pattern for `age` is searched for anywhere in
the line and matches the end of `garbage`. -/
theorem C18_load_config_garbage_sets_age :
    load_config (some "garbage = 5".toList) {} = .ok { AGE_LIMIT := 5 } ∧
    load_config (some "garbage = 5".toList) {} ≠ .ok {} := by
  decide

/-- The function `load_config` on some ordinary files: a missing file and a line with an
unrelated key leave the globals unchanged, known keys set their globals line by line, the
line `foodpower = 7` sets the food power alone, and the largest `int` is read. -/
theorem load_config_examples :
    load_config none {} = .ok {} ∧
    load_config (some "speed = 5".toList) {} = .ok {} ∧
    load_config (some "age = 10\nhealth=20\n".toList) {} =
      .ok { AGE_LIMIT := 10, MATE_HEALTH := 20 } ∧
    load_config (some "foodpower = 7".toList) {} = .ok { FOOD_POWER := 7 } ∧
    load_config (some "critters =\t2147483647".toList) {} =
      .ok { NUM_CRITTERS := 2147483647 } := by
  decide

end CritterEvolution
